import Mathlib

/-!
# tpm-vault: a shallow embedding of the vault lifecycle orchestrator

The C++ sources (`utils.cpp`, `loop_manager.cpp`, `luks_manager.cpp`,
`tpm_manager.cpp`, `tpm_vault.cpp`, `main.cpp`) are translated function by function into
pure Lean functions over an explicit `World`.

* Everything the program reaches through a process spawn, a system call or the
  FAPI library is an `Action`.  Whether an action succeeds is decided by an
  environment `Env` which may look at the whole history of earlier actions, so
  every pattern of failures and recoveries is covered.
* An action that succeeds has its nominal effect on the tables of the `World`
  (`effect`); an action that fails leaves the tables unchanged.
* Every action attempt is appended to `World.log` together with its outcome.
* Read-only probes (`stat`, `realpath`, `losetup -j`, `losetup -l`,
  `/proc/mounts`) read the tables of the `World` and are not logged.  They are
  composed as in the source: `LuksManager::is_open` is `file_exists` of the
  mapper path, and `file_exists` answers true for regular files only.
* Paths are canonical (no symbolic links), so `realpath p` is `p` when `p`
  exists and fails otherwise; `getcwd` succeeds and yields `World.cwd`.
* A C++ exception is an `Except.error`; state changes made before the throw
  are kept, hence results have the shape `Except VaultError α × World`.
-/

namespace tpm_vault

/-- One octet (`uint8_t`). -/
abbrev Byte := Fin 256

/-- Return codes of the FAPI library (`TSS2_RC`).  The header that gives the
numeric values is not part of the repository; only the codes the sources
compare against are named, every other value is `other`. -/
inductive FapiRc where
  | success
  | alreadyProvisioned
  | pathAlreadyExists
  | authorizationFailed
  | policyUnknown
  | keyNotFound
  | pathNotFound
  | other (code : Nat)
  deriving DecidableEq, Repr

/-- The exception class `VaultError`; one constructor per `throw` site, the
message of the site is given in the comment. -/
inductive VaultError where
  /-- message "This operation requires root privileges" -/
  | notRoot
  /-- message name + ".img already exists in current directory" -/
  | imageExists (name : String)
  /-- message name + ".img not found in current directory" -/
  | imageNotFound (name : String)
  /-- message what + " is already open" (thrown by `TpmVault::open` with the vault
  name and by `LuksManager::open` with the mapper name) -/
  | alreadyOpen (what : String)
  /-- message "Invalid key size from TPM" -/
  | invalidKeySize
  /-- message "Failed to create image file: " + path -/
  | createImageFailed (path : String)
  /-- message "Failed to create ext4 filesystem on " + device -/
  | mkfsFailed (device : String)
  /-- message "Failed to mount " + device + " to " + mount_point -/
  | mountFailed (device mount_point : String)
  /-- message "Failed to unmount " + mount_point -/
  | unmountFailed (mount_point : String)
  /-- message "Failed to create directory: " + path -/
  | mkdirFailed (path : String)
  /-- message "Failed to attach " + image_path + " as loop device" -/
  | attachFailed (image_path : String)
  /-- message "Invalid loop device returned: " + loop_device -/
  | invalidLoopDevice (loop_device : String)
  /-- message "Failed to detach loop device " + loop_device -/
  | detachFailed (loop_device : String)
  /-- message "Failed to format LUKS container on " + device -/
  | formatFailed (device : String)
  /-- message "Failed to open LUKS container on " + device -/
  | luksOpenFailed (device : String)
  /-- message "Failed to close LUKS container " + mapper_name -/
  | luksCloseFailed (mapper_name : String)
  /-- message "Data too large to seal (max 128 bytes, got N)" -/
  | sealTooLarge (size : Nat)
  /-- message "Failed to initialize FAPI context: ..." -/
  | fapiInitFailed (rc : FapiRc)
  /-- message "Failed to provision TPM: ..." -/
  | provisionFailed (rc : FapiRc)
  /-- message "Failed to import PCR policy: ..." -/
  | policyImportFailed (rc : FapiRc)
  /-- message "Failed to seal data in TPM: ..." -/
  | sealFailed (rc : FapiRc)
  /-- message "TPM unseal failed — PCR values have changed" -/
  | pcrChanged
  /-- message "No TPM sealed object found for " + name -/
  | noSealedObject (name : String)
  /-- message "Failed to unseal data from TPM: ..." -/
  | unsealFailed (rc : FapiRc)
  /-- message "Failed to delete sealed object: ..." -/
  | deleteFailed (rc : FapiRc)
  /-- message "Failed to open /dev/urandom" -/
  | urandomOpenFailed
  /-- message "Failed to read from /dev/urandom" -/
  | urandomReadFailed
  /-- message "Failed to create pipe", "Failed to fork" or "Failed to write to pipe",
  raised by `execute_command` itself -/
  | spawnFailed
  /-- message "Failed to execute command: " + cmd (popen) -/
  | popenFailed
  /-- message "Command failed: " + cmd -/
  | commandFailed
  /-- message "Empty size string" -/
  | emptySize
  /-- message "Invalid size format: " + size_str -/
  | invalidSize (size_str : String)
  deriving DecidableEq, Repr

/-- The externally visible actions of the program: the shell commands it
spawns, `std::remove`, the read of `/dev/urandom` and the FAPI calls. -/
inductive Action where
  /-- command `fallocate -l <size> <path>` -/
  | fallocate (path : String) (size : Nat)
  /-- command `dd if=/dev/zero of=<path> bs=1M count=<count>` -/
  | dd (path : String) (count : Nat)
  /-- command `losetup --find --show <image_path>` -/
  | losetupAttach (image_path : String)
  /-- command `losetup -d <loop_device>` -/
  | losetupDetach (loop_device : String)
  /-- command `cryptsetup luksFormat --type luks2 --batch-mode --key-file -
  --key-size <bits> <device>` with the key on standard input -/
  | luksFormat (device : String) (key_bits : Nat) (key : List Byte)
  /-- command `cryptsetup open --type luks2 --key-file - <device> <mapper_name>` -/
  | cryptOpen (device mapper_name : String) (key : List Byte)
  /-- command `cryptsetup close <mapper_name>` -/
  | cryptClose (mapper_name : String)
  /-- command `mkfs.ext4 -q <device>` -/
  | mkfs (device : String)
  /-- command `mkdir(path, 0755)` -/
  | mkdir (path : String)
  /-- command `mount <device> <mount_point>` -/
  | mount (device mount_point : String)
  /-- command `umount <mount_point>` -/
  | umount (mount_point : String)
  /-- command `std::remove(path)` -/
  | remove (path : String)
  /-- reading `n` bytes from `/dev/urandom` -/
  | readUrandom (n : Nat)
  | fapiInitialize
  | fapiProvision
  | fapiImport (path : String)
  | fapiDelete (path : String)
  | fapiCreateSeal (path : String) (policy : String) (data : List Byte)
  | fapiUnseal (path : String)
  deriving DecidableEq, Repr

/-- One attempt of an action and whether it succeeded. -/
structure Event where
  act : Action
  ok : Bool
  deriving DecidableEq, Repr

/-- How a spawned command ended. -/
inductive Spawn where
  /-- the child exited with this status (`WEXITSTATUS`) -/
  | exited (code : Nat)
  /-- the child did not exit normally; `execute_command` returns -1 -/
  | signalled
  /-- command `pipe`, `fork` or `write` failed in the parent -/
  | spawnFailed
  deriving DecidableEq, Repr

/-- What a read of `/dev/urandom` yields. -/
inductive Urandom where
  | openFailed
  | readFailed
  | stream (bytes : Nat → Byte)

/-- The environment: the outcome of every action as a function of the
history of earlier actions. -/
structure Env where
  /-- how a spawned command (or `mkdir`, `std::remove`) ends -/
  spawn : List Event → Action → Spawn
  /-- the standard output of a command that is read back -/
  output : List Event → Action → String
  /-- the return code of a FAPI call -/
  fapi : List Event → Action → FapiRc
  /-- the outcome of reading `/dev/urandom` -/
  urandom : List Event → Urandom

/-- The buffers that hold key material. -/
inductive Buf where
  /-- command `random_bytes` in `TpmVault::create` -/
  | random_bytes
  /-- command `master_key` in `TpmVault::create` and `TpmVault::open` -/
  | master_key
  /-- command `unsealed` in `TpmVault::open` (the vector returned by `unseal`) -/
  | unsealed
  /-- the buffer `data` that `Fapi_Unseal` allocates -/
  | fapi_data
  deriving DecidableEq, Repr

/-- The state of the operating system as the program can observe and change
it, together with the two pieces of process state the claims speak about. -/
structure World where
  /-- the current working directory -/
  cwd : String
  /-- effective user id -/
  euid : Nat
  /-- regular files: path and size in bytes -/
  files : List (String × Nat)
  /-- directories -/
  dirs : List String
  /-- loop bindings `(loop device, backing file)` in enumeration order -/
  loops : List (String × String)
  /-- container mappings `(mapper name, device)`: the device-mapper table, whose
  nodes under /dev/mapper are block devices (not entries of `files`) -/
  mappers : List (String × String)
  /-- mount table `(device, mount point)`, most recent mount first -/
  mounts : List (String × String)
  /-- FAPI keystore: object path and sealed data -/
  keystore : List (String × List Byte)
  /-- FAPI policy store: paths of imported policies -/
  policies : List String
  /-- command `TpmManager::policy_imported_` -/
  policy_imported : Bool
  /-- every action attempted so far, oldest first -/
  log : List Event
  /-- contents of each key buffer at the moment its storage was released -/
  released : List (Buf × List Byte)

/-- The result of a call that may throw. -/
abbrev Result (α : Type) := Except VaultError α × World

/-- Appends an action attempt to the log. -/
def record (a : Action) (ok : Bool) (w : World) : World :=
  { w with log := w.log ++ [⟨a, ok⟩] }

/-- Records that the storage of a key buffer is released with these contents. -/
def release (b : Buf) (storage : List Byte) (w : World) : World :=
  { w with released := w.released ++ [(b, storage)] }

/-- The nominal effect of a successful action on the tables; `out` is the
standard output of the command (the device chosen by `losetup --find`). -/
def effect (a : Action) (out : String) (w : World) : World :=
  match a with
  | .fallocate p n => { w with files := (p, n) :: w.files.filter (fun f => f.1 != p) }
  | .dd p c => { w with files := (p, c * 1048576) :: w.files.filter (fun f => f.1 != p) }
  | .losetupAttach p => { w with loops := w.loops ++ [(out, p)] }
  | .losetupDetach d => { w with loops := w.loops.filter (fun b => b.1 != d) }
  | .cryptOpen d m _ => { w with mappers := (m, d) :: w.mappers }
  | .cryptClose m => { w with mappers := w.mappers.filter (fun e => e.1 != m) }
  | .mkdir p => { w with dirs := p :: w.dirs }
  | .mount d p => { w with mounts := (d, p) :: w.mounts }
  | .umount p => { w with mounts := w.mounts.eraseP (fun e => e.2 == p) }
  | .remove p => { w with files := w.files.filter (fun f => f.1 != p) }
  | _ => w

/-! ## utils.cpp -/

/-- The function `secure_erase(void* ptr, size_t size)`: writes `size` zero bytes from the
start of the storage. -/
def secure_erase : List Byte → Nat → List Byte
  | [], _ => []
  | b :: bs, 0 => b :: bs
  | _ :: bs, n + 1 => 0 :: secure_erase bs n

/-- The function `secure_erase(std::vector<uint8_t>& data)`: the first component is the
underlying storage after the zero fill, the second the elements of the vector
after `clear()`. -/
def secure_erase_vector (data : List Byte) : List Byte × List Byte :=
  (secure_erase data data.length, [])

/-- The function `SecureBuffer::SecureBuffer(size_t size)`: `data_(size, 0)`. -/
def SecureBuffer.new (size : Nat) : List Byte := List.replicate size 0

/-- The function `SecureBuffer::~SecureBuffer()`: erases the storage, which is then released. -/
def SecureBuffer.destroy (data_ : List Byte) (w : World) : World :=
  release .master_key (secure_erase data_ data_.length) w

/-- The function `std::memcpy(dst, src, n)` on byte buffers. -/
def memcpy (dst src : List Byte) (n : Nat) : List Byte :=
  src.take n ++ dst.drop n

/-- The function `is_root()` -/
def is_root (w : World) : Bool := w.euid == 0

/-- The function `file_exists(path)`: `stat` succeeds and the entry is a regular file. -/
def file_exists (w : World) (path : String) : Bool :=
  decide (path ∈ w.files.map Prod.fst)

/-- The function `directory_exists(path)` -/
def directory_exists (w : World) (path : String) : Bool :=
  decide (path ∈ w.dirs)

/-- The function `realpath(path)`: fails when the path does not exist. -/
def realpath (w : World) (path : String) : Option String :=
  if file_exists w path || directory_exists w path then some path else none

/-- The function `get_current_directory()` -/
def get_current_directory (w : World) : String := w.cwd

/-- The function `execute_command(cmd, stdin_data)`: runs the command and returns its exit
status, -1 when the child did not exit normally. -/
def execute_command (env : Env) (a : Action) (w : World) : Result Int :=
  match env.spawn w.log a with
  | .spawnFailed => (.error .spawnFailed, record a false w)
  | .signalled => (.ok (-1), record a false w)
  | .exited code =>
    if code = 0 then (.ok 0, record a true (effect a (env.output w.log a) w))
    else (.ok (code : Int), record a false w)

/-- The function `execute_command_output(cmd)`: runs the command through `popen` and
returns its standard output without the trailing newline. -/
def execute_command_output (env : Env) (a : Action) (w : World) : Result String :=
  match env.spawn w.log a with
  | .spawnFailed => (.error .popenFailed, record a false w)
  | .signalled => (.error .commandFailed, record a false w)
  | .exited code =>
    if code = 0 then
      (.ok (env.output w.log a), record a true (effect a (env.output w.log a) w))
    else (.error .commandFailed, record a false w)

/-- The function `ensure_directory(path)` -/
def ensure_directory (env : Env) (path : String) (w : World) : Result Unit :=
  if !directory_exists w path then
    match env.spawn w.log (.mkdir path) with
    | .exited 0 => (.ok (), record (.mkdir path) true (effect (.mkdir path) "" w))
    | _ => (.error (.mkdirFailed path), record (.mkdir path) false w)
  else (.ok (), w)

/-- The function `generate_random_bytes(size)` -/
def generate_random_bytes (env : Env) (size : Nat) (w : World) : Result (List Byte) :=
  match env.urandom w.log with
  | .openFailed => (.error .urandomOpenFailed, record (.readUrandom size) false w)
  | .readFailed => (.error .urandomReadFailed, record (.readUrandom size) false w)
  | .stream bytes => (.ok ((List.range size).map bytes), record (.readUrandom size) true w)

/-! ## loop_manager.cpp -/

/-- The function `LoopManager::find_loop_for_file(image_path)`: the device of the first
binding that `losetup -j` prints for the resolved path, the empty string when
the path does not resolve or no binding is printed. -/
def LoopManager.find_loop_for_file (w : World) (image_path : String) : String :=
  match realpath w image_path with
  | none => ""
  | some abs_path =>
    match w.loops.find? (fun b => b.2 == abs_path) with
    | some b => b.1
    | none => ""

/-- The check `loop_device.empty() || loop_device.find("/dev/loop") != 0` of
`LoopManager::attach`. -/
def invalid_loop_device (loop_device : String) : Bool :=
  loop_device == "" || !("/dev/loop".toList.isPrefixOf loop_device.toList)

/-- The function `LoopManager::attach(image_path)`; the error thrown inside its `try` block
is replaced by the one of the `catch` block. -/
def LoopManager.attach (env : Env) (image_path : String) (w : World) : Result String :=
  let existing := LoopManager.find_loop_for_file w image_path
  if existing != "" then (.ok existing, w)
  else
    match execute_command_output env (.losetupAttach image_path) w with
    | (.ok loop_device, w) =>
      if invalid_loop_device loop_device then (.error (.attachFailed image_path), w)
      else (.ok loop_device, w)
    | (.error _, w) => (.error (.attachFailed image_path), w)

/-- The function `LoopManager::detach(loop_device)` -/
def LoopManager.detach (env : Env) (loop_device : String) (w : World) : Result Unit :=
  match execute_command env (.losetupDetach loop_device) w with
  | (.error e, w) => (.error e, w)
  | (.ok ret, w) =>
    if ret != 0 then (.error (.detachFailed loop_device), w) else (.ok (), w)

/-- The function `LoopManager::list_attached()`: the lines of `losetup -l -n -O NAME,BACK-FILE`
with a non-empty device and a non-empty file, in the order printed. -/
def LoopManager.list_attached (w : World) : List (String × String) :=
  w.loops.filter (fun b => b.1 != "" && b.2 != "")

/-! ## luks_manager.cpp -/

/-- The function `LuksManager::get_mapper_path(mapper_name)` -/
def LuksManager.get_mapper_path (mapper_name : String) : String :=
  "/dev/mapper/" ++ mapper_name

/-- The function `LuksManager::get_mapper_name(vault_name)` -/
def LuksManager.get_mapper_name (vault_name : String) : String :=
  "tpm-vault-" ++ vault_name

/-- The function `LuksManager::is_open(mapper_name)`: `file_exists` of the mapper path, that is
`stat` succeeds and the entry is a regular file.  The node of a container
mapping is a block device, so an entry of `World.mappers` alone does not make
this probe answer true. -/
def LuksManager.is_open (w : World) (mapper_name : String) : Bool :=
  let mapper_path := LuksManager.get_mapper_path mapper_name
  file_exists w mapper_path

/-- The function `LuksManager::format(device, key)` -/
def LuksManager.format (env : Env) (device : String) (key : List Byte) (w : World) :
    Result Unit :=
  match execute_command env (.luksFormat device (key.length * 8) key) w with
  | (.error e, w) => (.error e, w)
  | (.ok ret, w) =>
    if ret != 0 then (.error (.formatFailed device), w) else (.ok (), w)

/-- The function `LuksManager::open(device, mapper_name, key)` -/
def LuksManager.open_ (env : Env) (device mapper_name : String) (key : List Byte)
    (w : World) : Result Unit :=
  if LuksManager.is_open w mapper_name then (.error (.alreadyOpen mapper_name), w)
  else
    match execute_command env (.cryptOpen device mapper_name key) w with
    | (.error e, w) => (.error e, w)
    | (.ok ret, w) =>
      if ret != 0 then (.error (.luksOpenFailed device), w) else (.ok (), w)

/-- The function `LuksManager::close(mapper_name)` -/
def LuksManager.close (env : Env) (mapper_name : String) (w : World) : Result Unit :=
  if !LuksManager.is_open w mapper_name then (.ok (), w)
  else
    match execute_command env (.cryptClose mapper_name) w with
    | (.error e, w) => (.error e, w)
    | (.ok ret, w) =>
      if ret != 0 then (.error (.luksCloseFailed mapper_name), w) else (.ok (), w)

/-! ## tpm_manager.cpp

The FAPI library is an external collaborator.  Its keystore is modelled by
`World.keystore` and `World.policies`: creating an object at a path that is
taken answers `pathAlreadyExists`, reading or deleting a path that is absent
answers one of the two not-found codes, and otherwise the environment picks
the return code; a call changes the store only when it answers `success`. -/

/-- The constant `TpmManager::POLICY_PATH` -/
def TpmManager.POLICY_PATH : String := "/policy/tpm_vault_pcr"

/-- The not-found code the library answers for an absent path. -/
def notFoundRc (rc : FapiRc) : FapiRc :=
  if rc = .pathNotFound then .pathNotFound else .keyNotFound

/-- The library call `Fapi_Provision`. -/
def Fapi_Provision (env : Env) (w : World) : FapiRc × World :=
  let rc := env.fapi w.log .fapiProvision
  (rc, record .fapiProvision (rc == .success) w)

/-- The library call `Fapi_Import(ctx, path, json)`. -/
def Fapi_Import (env : Env) (path : String) (w : World) : FapiRc × World :=
  let rc := if path ∈ w.policies then .pathAlreadyExists else env.fapi w.log (.fapiImport path)
  if rc = .success then
    (rc, record (.fapiImport path) true { w with policies := path :: w.policies })
  else (rc, record (.fapiImport path) false w)

/-- The library call `Fapi_Delete(ctx, path)`. -/
def Fapi_Delete (env : Env) (path : String) (w : World) : FapiRc × World :=
  let rc :=
    if path ∈ w.keystore.map Prod.fst then env.fapi w.log (.fapiDelete path)
    else notFoundRc (env.fapi w.log (.fapiDelete path))
  if rc = .success then
    (rc, record (.fapiDelete path) true
      { w with keystore := w.keystore.filter (fun o => o.1 != path) })
  else (rc, record (.fapiDelete path) false w)

/-- The library call `Fapi_CreateSeal(ctx, path, type, size, policyPath, authValue, data)`. -/
def Fapi_CreateSeal (env : Env) (path policy : String) (data : List Byte) (w : World) :
    FapiRc × World :=
  let rc :=
    if path ∈ w.keystore.map Prod.fst then .pathAlreadyExists
    else env.fapi w.log (.fapiCreateSeal path policy data)
  if rc = .success then
    (rc, record (.fapiCreateSeal path policy data) true
      { w with keystore := (path, data) :: w.keystore })
  else (rc, record (.fapiCreateSeal path policy data) false w)

/-- The library call `Fapi_Unseal(ctx, path, &data, &size)`: the return code and the
buffer it allocates. -/
def Fapi_Unseal (env : Env) (path : String) (w : World) : FapiRc × List Byte × World :=
  match w.keystore.find? (fun o => o.1 == path) with
  | none =>
    (notFoundRc (env.fapi w.log (.fapiUnseal path)), [], record (.fapiUnseal path) false w)
  | some o =>
    let rc := env.fapi w.log (.fapiUnseal path)
    if rc = .success then (rc, o.2, record (.fapiUnseal path) true w)
    else (rc, [], record (.fapiUnseal path) false w)

/-- The constructor `TpmManager::TpmManager()`: `Fapi_Initialize`. -/
def TpmManager.new (env : Env) (w : World) : Result Unit :=
  let rc := env.fapi w.log .fapiInitialize
  if rc != .success then (.error (.fapiInitFailed rc), record .fapiInitialize false w)
  else (.ok (), record .fapiInitialize true { w with policy_imported := false })

/-- The function `TpmManager::provision()` -/
def TpmManager.provision (env : Env) (w : World) : Result Unit :=
  match Fapi_Provision env w with
  | (rc, w) =>
    if rc = .alreadyProvisioned then (.ok (), w)
    else if rc != .success then (.error (.provisionFailed rc), w)
    else (.ok (), w)

/-- The function `TpmManager::ensure_pcr_policy()` -/
def TpmManager.ensure_pcr_policy (env : Env) (w : World) : Result Unit :=
  if w.policy_imported then (.ok (), w)
  else
    match Fapi_Import env TpmManager.POLICY_PATH w with
    | (rc, w) =>
      if rc = .pathAlreadyExists then (.ok (), { w with policy_imported := true })
      else if rc != .success then (.error (.policyImportFailed rc), w)
      else (.ok (), { w with policy_imported := true })

/-- The function `TpmManager::get_seal_path(name)` -/
def TpmManager.get_seal_path (name : String) : String := "/HS/SRK/seal_" ++ name

/-- The function `TpmManager::seal(name, data)` -/
def TpmManager.seal (env : Env) (name : String) (data : List Byte) (w : World) :
    Result Unit :=
  if data.length > 128 then (.error (.sealTooLarge data.length), w)
  else
    match TpmManager.ensure_pcr_policy env w with
    | (.error e, w) => (.error e, w)
    | (.ok (), w) =>
      let path := TpmManager.get_seal_path name
      match Fapi_Delete env path w with
      | (_, w) =>
        match Fapi_CreateSeal env path TpmManager.POLICY_PATH data w with
        | (rc, w) =>
          if rc != .success then (.error (.sealFailed rc), w) else (.ok (), w)

/-- The function `TpmManager::unseal(name)`: the bytes are copied into the returned vector
and the library buffer is handed to `Fapi_Free` as it is. -/
def TpmManager.unseal (env : Env) (name : String) (w : World) : Result (List Byte) :=
  let path := TpmManager.get_seal_path name
  match Fapi_Unseal env path w with
  | (rc, data, w) =>
    if rc != .success then
      if rc = .authorizationFailed || rc = .policyUnknown then (.error .pcrChanged, w)
      else if rc = .keyNotFound || rc = .pathNotFound then (.error (.noSealedObject name), w)
      else (.error (.unsealFailed rc), w)
    else
      let result := data
      (.ok result, release .fapi_data data w)

/-- The function `TpmManager::remove(name)` -/
def TpmManager.remove (env : Env) (name : String) (w : World) : Result Unit :=
  let path := TpmManager.get_seal_path name
  match Fapi_Delete env path w with
  | (rc, w) =>
    if rc = .keyNotFound || rc = .pathNotFound then (.error (.noSealedObject name), w)
    else if rc != .success then (.error (.deleteFailed rc), w)
    else (.ok (), w)

/-! ## tpm_vault.cpp -/

/-- The constant `TpmVault::KEY_SIZE` -/
def TpmVault.KEY_SIZE : Nat := 64

/-- The constant `TpmVault::DEFAULT_SIZE` -/
def TpmVault.DEFAULT_SIZE : Nat := 100 * 1024 * 1024

/-- The structure `VaultInfo` -/
structure VaultInfo where
  name : String
  image_path : String
  loop_device : String
  mapper_device : String
  mount_point : String
  deriving DecidableEq, Repr

/-- Exceptions of the standard library that are not `VaultError`. -/
inductive StdException where
  | out_of_range
  | invalid_argument
  deriving DecidableEq, Repr

/-- The function `TpmVault::get_image_path(name)` -/
def TpmVault.get_image_path (w : World) (name : String) : String :=
  get_current_directory w ++ "/" ++ name ++ ".img"

/-- The function `TpmVault::get_mount_path(name)` -/
def TpmVault.get_mount_path (w : World) (name : String) : String :=
  get_current_directory w ++ "/" ++ name

/-- The function `TpmVault::create_image_file(path, size)` -/
def TpmVault.create_image_file (env : Env) (path : String) (size : Nat) (w : World) :
    Result Unit :=
  match execute_command env (.fallocate path size) w with
  | (.error e, w) => (.error e, w)
  | (.ok ret, w) =>
    if ret != 0 then
      match execute_command env (.dd path (size / (1024 * 1024))) w with
      | (.error e, w) => (.error e, w)
      | (.ok ret, w) =>
        if ret != 0 then (.error (.createImageFailed path), w) else (.ok (), w)
    else (.ok (), w)

/-- The function `TpmVault::create_filesystem(device)` -/
def TpmVault.create_filesystem (env : Env) (device : String) (w : World) : Result Unit :=
  match execute_command env (.mkfs device) w with
  | (.error e, w) => (.error e, w)
  | (.ok ret, w) =>
    if ret != 0 then (.error (.mkfsFailed device), w) else (.ok (), w)

/-- The function `TpmVault::mount_filesystem(device, mount_point)` -/
def TpmVault.mount_filesystem (env : Env) (device mount_point : String) (w : World) :
    Result Unit :=
  match ensure_directory env mount_point w with
  | (.error e, w) => (.error e, w)
  | (.ok (), w) =>
    match execute_command env (.mount device mount_point) w with
    | (.error e, w) => (.error e, w)
    | (.ok ret, w) =>
      if ret != 0 then (.error (.mountFailed device mount_point), w) else (.ok (), w)

/-- The function `TpmVault::is_mounted(mount_point)`: the resolved path is the directory of
some entry of /proc/mounts. -/
def TpmVault.is_mounted (w : World) (mount_point : String) : Bool :=
  match realpath w mount_point with
  | none => false
  | some abs_path => decide (abs_path ∈ w.mounts.map Prod.snd)

/-- The function `TpmVault::unmount_filesystem(mount_point)` -/
def TpmVault.unmount_filesystem (env : Env) (mount_point : String) (w : World) :
    Result Unit :=
  if !TpmVault.is_mounted w mount_point then (.ok (), w)
  else
    match execute_command env (.umount mount_point) w with
    | (.error e, w) => (.error e, w)
    | (.ok ret, w) =>
      if ret != 0 then (.error (.unmountFailed mount_point), w) else (.ok (), w)

/-- The call `std::remove(path)`; its result is not inspected by the caller. -/
def std_remove (env : Env) (path : String) (w : World) : World :=
  match env.spawn w.log (.remove path) with
  | .exited 0 => record (.remove path) true (effect (.remove path) "" w)
  | _ => record (.remove path) false w

/-- The `try` block of `TpmVault::create`.  The middle component is the value
of the local `loop_device` when the block is left. -/
def TpmVault.create_try (env : Env) (name : String) (size : Nat) (master_key : List Byte)
    (w : World) : Except VaultError Unit × String × World :=
  let image_path := TpmVault.get_image_path w name
  let mapper_name := LuksManager.get_mapper_name name
  let mapper_path := LuksManager.get_mapper_path mapper_name
  let loop_device := ""
  match TpmVault.create_image_file env image_path size w with
  | (.error e, w) => (.error e, loop_device, w)
  | (.ok (), w) =>
  match LoopManager.attach env image_path w with
  | (.error e, w) => (.error e, loop_device, w)
  | (.ok dev, w) =>
  let loop_device := dev
  match LuksManager.format env loop_device master_key w with
  | (.error e, w) => (.error e, loop_device, w)
  | (.ok (), w) =>
  match LuksManager.open_ env loop_device mapper_name master_key w with
  | (.error e, w) => (.error e, loop_device, w)
  | (.ok (), w) =>
  match TpmVault.create_filesystem env mapper_path w with
  | (.error e, w) => (.error e, loop_device, w)
  | (.ok (), w) =>
  match LuksManager.close env mapper_name w with
  | (.error e, w) => (.error e, loop_device, w)
  | (.ok (), w) =>
  match LoopManager.detach env loop_device w with
  | (.error e, w) => (.error e, loop_device, w)
  | (.ok (), w) =>
  let loop_device := ""
  match TpmManager.seal env name master_key w with
  | (.error e, w) => (.error e, loop_device, w)
  | (.ok (), w) => (.ok (), loop_device, w)

/-- The `catch` block of `TpmVault::create` up to the final `throw;`. -/
def TpmVault.create_catch (env : Env) (name : String) (loop_device : String) (w : World) :
    World :=
  let image_path := TpmVault.get_image_path w name
  let mapper_name := LuksManager.get_mapper_name name
  let w := if LuksManager.is_open w mapper_name then (LuksManager.close env mapper_name w).2
           else w
  let w := if loop_device != "" then (LoopManager.detach env loop_device w).2 else w
  if file_exists w image_path then std_remove env image_path w else w

/-- The function `TpmVault::create(name, size)` -/
def TpmVault.create (env : Env) (name : String) (size : Nat) (w : World) : Result Unit :=
  let image_path := TpmVault.get_image_path w name
  if file_exists w image_path then (.error (.imageExists name), w)
  else
    let master_key := SecureBuffer.new TpmVault.KEY_SIZE
    match generate_random_bytes env TpmVault.KEY_SIZE w with
    | (.error e, w) => (.error e, SecureBuffer.destroy master_key w)
    | (.ok random_bytes, w) =>
      let master_key := memcpy master_key random_bytes TpmVault.KEY_SIZE
      let w := release .random_bytes (secure_erase_vector random_bytes).1 w
      match TpmVault.create_try env name size master_key w with
      | (.ok (), _, w) => (.ok (), SecureBuffer.destroy master_key w)
      | (.error e, loop_device, w) =>
        let w := TpmVault.create_catch env name loop_device w
        (.error e, SecureBuffer.destroy master_key w)

/-- The `try` block of `TpmVault::open`, with the value of `loop_device` when
the block is left. -/
def TpmVault.open_try (env : Env) (name : String) (master_key : List Byte) (w : World) :
    Except VaultError Unit × String × World :=
  let image_path := TpmVault.get_image_path w name
  let mount_path := TpmVault.get_mount_path w name
  let mapper_name := LuksManager.get_mapper_name name
  let mapper_path := LuksManager.get_mapper_path mapper_name
  let loop_device := ""
  match LoopManager.attach env image_path w with
  | (.error e, w) => (.error e, loop_device, w)
  | (.ok dev, w) =>
  let loop_device := dev
  match LuksManager.open_ env loop_device mapper_name master_key w with
  | (.error e, w) => (.error e, loop_device, w)
  | (.ok (), w) =>
  match TpmVault.mount_filesystem env mapper_path mount_path w with
  | (.error e, w) => (.error e, loop_device, w)
  | (.ok (), w) => (.ok (), loop_device, w)

/-- The `catch` block of `TpmVault::open` up to the final `throw;`. -/
def TpmVault.open_catch (env : Env) (name : String) (loop_device : String) (w : World) :
    World :=
  let mapper_name := LuksManager.get_mapper_name name
  let w := if LuksManager.is_open w mapper_name then (LuksManager.close env mapper_name w).2
           else w
  if loop_device != "" then (LoopManager.detach env loop_device w).2 else w

/-- The function `TpmVault::open(name)` -/
def TpmVault.open_ (env : Env) (name : String) (w : World) : Result Unit :=
  let image_path := TpmVault.get_image_path w name
  let mapper_name := LuksManager.get_mapper_name name
  if !file_exists w image_path then (.error (.imageNotFound name), w)
  else if LuksManager.is_open w mapper_name then (.error (.alreadyOpen name), w)
  else
    let master_key := SecureBuffer.new TpmVault.KEY_SIZE
    match TpmManager.unseal env name w with
    | (.error e, w) => (.error e, SecureBuffer.destroy master_key w)
    | (.ok unsealed, w) =>
      if unsealed.length != TpmVault.KEY_SIZE then
        let w := release .unsealed (secure_erase_vector unsealed).1 w
        (.error .invalidKeySize, SecureBuffer.destroy master_key w)
      else
        let master_key := memcpy master_key unsealed TpmVault.KEY_SIZE
        let w := release .unsealed (secure_erase_vector unsealed).1 w
        match TpmVault.open_try env name master_key w with
        | (.ok (), _, w) => (.ok (), SecureBuffer.destroy master_key w)
        | (.error e, loop_device, w) =>
          let w := TpmVault.open_catch env name loop_device w
          (.error e, SecureBuffer.destroy master_key w)

/-- The third `try` block of `TpmVault::close`: find and detach the loop device. -/
def TpmVault.close_detach (env : Env) (image_path : String) (w : World) : Result Unit :=
  let loop_device := LoopManager.find_loop_for_file w image_path
  if loop_device != "" then LoopManager.detach env loop_device w else (.ok (), w)

/-- The handler `if (!first_error) first_error = std::current_exception();`. -/
def remember (first_error : Option VaultError) (r : Except VaultError Unit) :
    Option VaultError :=
  match r with
  | .ok _ => first_error
  | .error e => if first_error.isNone then some e else first_error

/-- The function `TpmVault::close(name)` -/
def TpmVault.close (env : Env) (name : String) (w : World) : Result Unit :=
  let image_path := TpmVault.get_image_path w name
  let mount_path := TpmVault.get_mount_path w name
  let mapper_name := LuksManager.get_mapper_name name
  let first_error : Option VaultError := none
  match TpmVault.unmount_filesystem env mount_path w with
  | (r1, w) =>
  let first_error := remember first_error r1
  match LuksManager.close env mapper_name w with
  | (r2, w) =>
  let first_error := remember first_error r2
  match TpmVault.close_detach env image_path w with
  | (r3, w) =>
  let first_error := remember first_error r3
  match first_error with
  | some e => (.error e, w)
  | none => (.ok (), w)

/-- The call `s.substr(pos, len)` of `std::string`: throws `std::out_of_range` when
`pos > size()`. -/
def substr (s : String) (pos : Nat) (len : Nat) : Except StdException String :=
  if pos > s.length then .error .out_of_range
  else .ok (String.mk ((s.toList.drop pos).take len))

/-- The constant `std::string::npos` -/
def npos : Nat := 2 ^ 64 - 1

/-- The two lines of `TpmVault::list` that extract the vault name from a
backing file: `filename = backing_file.substr(cwd.size() + 1)` and
`name = filename.substr(0, filename.size() - 4)`, in `size_t` arithmetic. -/
def TpmVault.list_name (cwd backing_file : String) : Except StdException String :=
  match substr backing_file ((cwd.length + 1) % 2 ^ 64) npos with
  | .error x => .error x
  | .ok filename => substr filename 0 ((filename.length + 2 ^ 64 - 4) % 2 ^ 64)

/-- The body of the `for` loop of `TpmVault::list` for one binding: `none` when
the binding is skipped (`continue`, or the final `if` is false), else the
entry that is pushed onto the result. -/
def TpmVault.list_body (w : World) (cwd : String) (loop_dev backing_file : String) :
    Except StdException (Option VaultInfo) :=
  if !(cwd.toList.isPrefixOf backing_file.toList) then .ok none
  else if backing_file.length ≤ 4 then .ok none
  else
    match substr backing_file ((backing_file.length + 2 ^ 64 - 4) % 2 ^ 64) npos with
    | .error x => .error x
    | .ok ext =>
    if ext != ".img" then .ok none
    else
      match TpmVault.list_name cwd backing_file with
      | .error x => .error x
      | .ok name =>
      let mapper_name := LuksManager.get_mapper_name name
      let mapper_path := LuksManager.get_mapper_path mapper_name
      let mount_path := TpmVault.get_mount_path w name
      if LuksManager.is_open w mapper_name && TpmVault.is_mounted w mount_path then
        .ok (some { name := name, image_path := backing_file, loop_device := loop_dev,
                    mapper_device := mapper_path, mount_point := mount_path })
      else .ok none

/-- The `for` loop of `TpmVault::list` over the remaining bindings. -/
def TpmVault.list_loop (w : World) (cwd : String) :
    List (String × String) → Except StdException (List VaultInfo)
  | [] => .ok []
  | b :: rest =>
    match TpmVault.list_body w cwd b.1 b.2 with
    | .error x => .error x
    | .ok none => TpmVault.list_loop w cwd rest
    | .ok (some info) =>
      match TpmVault.list_loop w cwd rest with
      | .error x => .error x
      | .ok result => .ok (info :: result)

/-- The function `TpmVault::list()` -/
def TpmVault.list (w : World) : Except StdException (List VaultInfo) :=
  let cwd := get_current_directory w
  let loops := LoopManager.list_attached w
  TpmVault.list_loop w cwd loops

/-- The function `TpmVault::wipe(name)` -/
def TpmVault.wipe (env : Env) (name : String) (w : World) : Result Unit :=
  TpmManager.remove env name w

/-! ## parse_size (utils.cpp) -/

/-- The C function `isspace` in the "C" locale: the space and the control
characters 9 to 13. -/
def isspace (c : Char) : Bool :=
  c.toNat == 32 || (9 ≤ c.toNat && c.toNat ≤ 13)

/-- The C function `isdigit`: the characters 0 to 9. -/
def isdigit (c : Char) : Bool :=
  48 ≤ c.toNat && c.toNat ≤ 57

/-- The call `std::stoull(str)` with base 10: skips white space, takes an optional sign
and the longest run of decimal digits, ignores what follows; throws
`std::invalid_argument` when there is no digit and `std::out_of_range` when
the digits exceed 2^64 - 1; a leading minus negates modulo 2^64. -/
def stoull (str : String) : Except StdException Nat :=
  let cs := str.toList.dropWhile isspace
  let neg := cs.head? == some '-'
  let cs := if cs.head? == some '-' || cs.head? == some '+' then cs.tail else cs
  let ds := cs.takeWhile isdigit
  if ds.isEmpty then .error .invalid_argument
  else
    let v := ds.foldl (fun acc c => 10 * acc + (c.toNat - 48)) 0
    if v ≥ 2 ^ 64 then .error .out_of_range
    else .ok (if neg then (2 ^ 64 - v) % 2 ^ 64 else v)

/-- The function `parse_size(size_str)` -/
def parse_size (size_str : String) : Except VaultError Nat :=
  match size_str.toList.getLast? with
  | none => .error .emptySize
  | some suffix =>
    let stripped := String.mk size_str.toList.dropLast
    let mn : Nat × String :=
      if suffix == 'M' || suffix == 'm' then (1024 * 1024, stripped)
      else if suffix == 'G' || suffix == 'g' then (1024 * 1024 * 1024, stripped)
      else if suffix == 'K' || suffix == 'k' then (1024, stripped)
      else (1, size_str)
    match stoull mn.2 with
    | .ok value => .ok ((value * mn.1) % 2 ^ 64)
    | .error _ => .error (.invalidSize size_str)

/-! ## Vocabulary for the statements -/

deriving instance DecidableEq for Except

deriving instance DecidableEq for World

/-- Whether the environment lets action `a` succeed after history `h`. -/
def succeeds (env : Env) (h : List Event) (a : Action) : Bool :=
  env.spawn h a == .exited 0

/-- The world after one attempt of action `a`: the attempt is logged, and the
tables change exactly when the environment lets the action succeed. -/
def attempt (env : Env) (a : Action) (w : World) : World :=
  if succeeds env w.log a then record a true (effect a (env.output w.log a) w)
  else record a false w

/-- The error a failed command surfaces as: the error of `execute_command`
itself when the spawn failed, else the error `e` of the calling function. -/
def spawn_error (env : Env) (h : List Event) (a : Action) (e : VaultError) : VaultError :=
  if env.spawn h a = .spawnFailed then .spawnFailed else e

/-- The event that an attempt of `a` after history `h` appends to the log. -/
def attempt_event (env : Env) (h : List Event) (a : Action) : Event :=
  ⟨a, succeeds env h a⟩

/-- The first error in a sequence of step results, `ok` when there is none. -/
def first_failure : List (Except VaultError Unit) → Except VaultError Unit
  | [] => .ok ()
  | .error e :: _ => .error e
  | .ok _ :: rest => first_failure rest

/-! ## Sample environments and worlds -/

/-- An environment in which every action succeeds; `losetup` hands out
/dev/loop0 and the random source yields the byte 7. -/
def env_ok : Env :=
  { spawn := fun _ _ => .exited 0
    output := fun _ _ => "/dev/loop0"
    fapi := fun _ _ => .success
    urandom := fun _ => .stream (fun _ => 7) }

/-- An empty system with working directory /home/u. -/
def world0 : World :=
  { cwd := "/home/u", euid := 0, files := [], dirs := [], loops := [], mappers := [],
    mounts := [], keystore := [], policies := [], policy_imported := false, log := [],
    released := [] }

/-- The vault `s` exists (its image file is present) and is closed. -/
def world_created : World := { world0 with files := [("/home/u/s.img", 1048576)] }

/-- The vault `s` is open: attached, mapped and mounted. -/
def world_opened : World :=
  { world_created with
    loops := [("/dev/loop0", "/home/u/s.img")]
    mappers := [("tpm-vault-s", "/dev/loop0")]
    dirs := ["/home/u/s"]
    mounts := [("/dev/mapper/tpm-vault-s", "/home/u/s")] }

/-- Actions that change the file table. -/
@[simp] def Action.touches_files : Action → Bool
  | .fallocate _ _ | .dd _ _ | .remove _ => true
  | _ => false

/-- Actions that change the loop table. -/
@[simp] def Action.touches_loops : Action → Bool
  | .losetupAttach _ | .losetupDetach _ => true
  | _ => false

/-- Actions that change the mapper table. -/
@[simp] def Action.touches_mappers : Action → Bool
  | .cryptOpen _ _ _ | .cryptClose _ => true
  | _ => false

/-- Actions that change the mount table. -/
@[simp] def Action.touches_mounts : Action → Bool
  | .mount _ _ | .umount _ => true
  | _ => false

/-- Actions that change the directory table. -/
@[simp] def Action.touches_dirs : Action → Bool
  | .mkdir _ => true
  | _ => false

/-- Whether `losetup --find --show` printed an acceptable device. -/
def valid_loop_device (out : String) : Bool := !invalid_loop_device out

/-- The part of the world outside the FAPI store, the log and the ledger of
released buffers. -/
def os_tables (w : World) :
    String × Nat × List (String × Nat) × List String × List (String × String) ×
      List (String × String) × List (String × String) :=
  (w.cwd, w.euid, w.files, w.dirs, w.loops, w.mappers, w.mounts)

/-- The events that the rollback of `create` appends to the log, starting from
the world `w` the failed step left: a container close when the probe `is_open`
answers true, then a detach when a loop device is held (`loop_device`
non-empty), then the removal of the image file when it exists, each with the
outcome the environment gives it. -/
def create_rollback_events (env : Env) (name : String) (loop_device : String) (w : World) :
    List Event :=
  let close_ev :=
    if LuksManager.is_open w (LuksManager.get_mapper_name name) then
      [attempt_event env w.log (.cryptClose (LuksManager.get_mapper_name name))]
    else []
  let detach_ev :=
    if loop_device != "" then
      [attempt_event env (w.log ++ close_ev) (.losetupDetach loop_device)]
    else []
  let remove_ev :=
    if file_exists w (TpmVault.get_image_path w name) then
      [attempt_event env (w.log ++ close_ev ++ detach_ev)
        (.remove (TpmVault.get_image_path w name))]
    else []
  close_ev ++ detach_ev ++ remove_ev

/-- An environment in which `cryptsetup luksFormat` and `losetup -d` fail and
everything else succeeds. -/
def env_format_detach_fail : Env :=
  { env_ok with
    spawn := fun _ a =>
      match a with
      | .luksFormat _ _ _ => .exited 1
      | .losetupDetach _ => .exited 1
      | _ => .exited 0 }

/-- What the guarded sequence of `create` maintains: directory and mount table
as at the start, and every loop binding of the image is the one held in the
local `loop_device`. -/
def create_inv (w : World) (image ld : String) (W : World) : Prop :=
  W.cwd = w.cwd ∧ W.mounts = w.mounts ∧ ∀ d, (d, image) ∈ W.loops → d = ld ∧ ld ≠ ""


/-- An environment in which `cryptsetup luksFormat` fails and everything else
succeeds. -/
def env_format_fail : Env :=
  { env_ok with
    spawn := fun _ a =>
      match a with
      | .luksFormat _ _ _ => .exited 1
      | _ => .exited 0 }

/-- An environment in which `mount` fails and everything else succeeds. -/
def env_mount_fail : Env :=
  { env_ok with
    spawn := fun _ a =>
      match a with
      | .mount _ _ => .exited 32
      | _ => .exited 0 }

/-- The vault `s` exists and its key (64 bytes of 7) is sealed. -/
def world_sealed : World :=
  { world_created with keystore := [("/HS/SRK/seal_s", List.replicate 64 7)] }

/-- The `mount` command of `mount_filesystem`, run in world `w`. -/
def mount_step (env : Env) (d p : String) (w : World) : Result Unit :=
  if succeeds env w.log (.mount d p) then (.ok (), attempt env (.mount d p) w)
  else (.error (spawn_error env w.log (.mount d p) (.mountFailed d p)),
        attempt env (.mount d p) w)

/-- The log of `w'` continues the log of `w` with events that all satisfy `P`. -/
def extends_with (P : Event → Prop) (w w' : World) : Prop :=
  ∃ evs, w'.log = w.log ++ evs ∧ ∀ ev ∈ evs, P ev

/-- The image of the vault `s` is bound to two loop devices. -/
def world_double_binding : World :=
  { world_created with
    loops := [("/dev/loop0", "/home/u/s.img"), ("/dev/loop1", "/home/u/s.img")] }

/-- At most one loop device is bound to the file. -/
def at_most_one_binding (w : World) (file : String) : Prop :=
  ∀ d1 d2, (d1, file) ∈ w.loops → (d2, file) ∈ w.loops → d1 = d2

/-- At most one mount table entry has the mount point. -/
def at_most_one_mount (w : World) (mount_point : String) : Prop :=
  (w.mounts.map Prod.snd).count mount_point ≤ 1

instance (w : World) (mount_point : String) : Decidable (at_most_one_mount w mount_point) :=
  inferInstanceAs (Decidable (_ ≤ 1))

/-- The vault `s` is open and its key is sealed. -/
def world_opened_sealed : World :=
  { world_opened with keystore := [("/HS/SRK/seal_s", List.replicate 64 7)] }

/-- Two secrets are sealed: one for `s`, one for `t`. -/
def world_two_secrets : World :=
  { world_created with
    keystore := [("/HS/SRK/seal_s", List.replicate 64 7), ("/HS/SRK/seal_t", [1, 2, 3])] }

/-- An environment in which the secure element refuses to release secrets:
`Fapi_Unseal` answers authorization-failed (the platform state has drifted). -/
def env_pcr_drift : Env :=
  { env_ok with
    fapi := fun _ a =>
      match a with
      | .fapiUnseal _ => .authorizationFailed
      | _ => .success }

/-- The value of a string of decimal digits, most significant digit first. -/
def decimal_value (ds : List Char) : Nat :=
  ds.foldl (fun acc c => 10 * acc + (c.toNat - 48)) 0

/-- Working directory /home/u; a loop device is bound to the file
/home/u-c.img, which lies in /home; a file system is mounted at /home/u/c and
a regular file sits at the path /dev/mapper/tpm-vault-c. -/
def world_foreign_image : World :=
  { world0 with
    files := [("/home/u-c.img", 1048576), ("/dev/mapper/tpm-vault-c", 0)]
    loops := [("/dev/loop1", "/home/u-c.img")]
    dirs := ["/home/u/c"]
    mounts := [("/dev/sdb1", "/home/u/c")] }

/-- An environment in which `fallocate` fails and everything else succeeds. -/
def env_fallocate_fail : Env :=
  { env_ok with
    spawn := fun _ a =>
      match a with
      | .fallocate _ _ => .exited 1
      | _ => .exited 0 }

/-! ## The constructor of TpmVault and main.cpp -/

/-- The constructor `TpmVault::TpmVault()`: the member initialisers run first (the
`TpmManager` is constructed, which calls `Fapi_Initialize`), then the body checks
`is_root()` and calls `provision()`. -/
def TpmVault.new (env : Env) (w : World) : Result Unit :=
  match TpmManager.new env w with
  | (.error e, w) => (.error e, w)
  | (.ok (), w) =>
    if !is_root w then (.error .notRoot, w)
    else TpmManager.provision env w

/-- How the process ends: `main` returns a status, or an exception that no
handler catches reaches `std::terminate`. -/
inductive Exit where
  | returned (status : Nat)
  | terminated
  deriving DecidableEq, Repr

/-- What an invocation writes to the error stream. -/
inductive Diagnostic where
  /-- the usage text alone (`print_usage`) -/
  | usage
  /-- message "Error: Missing vault name" and the usage line of the command -/
  | missing_vault_name
  /-- message "Error: Unknown command '<command>'" and the usage text -/
  | unknown_command (command : String)
  /-- message "Error: " followed by the text of the caught `VaultError` -/
  | error (e : VaultError)
  deriving DecidableEq, Repr

/-- The observable result of one invocation of the program. -/
structure Outcome where
  exit : Exit
  diagnostic : Option Diagnostic
  world : World

/-- The `try` block shared by the command functions: construct the vault, run
the operation, report a caught `VaultError`. -/
def run_vault (env : Env) (op : World → Result Unit) (w : World) : Outcome :=
  match TpmVault.new env w with
  | (.error e, w) => ⟨.returned 1, some (.error e), w⟩
  | (.ok (), w) =>
    match op w with
    | (.error e, w) => ⟨.returned 1, some (.error e), w⟩
    | (.ok (), w) => ⟨.returned 0, none, w⟩

/-- The function `cmd_create(argc, argv)` -/
def cmd_create (env : Env) (argv : List String) (w : World) : Outcome :=
  if argv.length < 3 then ⟨.returned 1, some .missing_vault_name, w⟩
  else
    let name := argv.getD 2 ""
    match (if argv.length ≥ 4 then parse_size (argv.getD 3 "")
           else .ok TpmVault.DEFAULT_SIZE) with
    | .error e => ⟨.returned 1, some (.error e), w⟩
    | .ok size => run_vault env (TpmVault.create env name size) w

/-- The function `cmd_open(argc, argv)` -/
def cmd_open (env : Env) (argv : List String) (w : World) : Outcome :=
  if argv.length < 3 then ⟨.returned 1, some .missing_vault_name, w⟩
  else run_vault env (TpmVault.open_ env (argv.getD 2 "")) w

/-- The function `cmd_close(argc, argv)` -/
def cmd_close (env : Env) (argv : List String) (w : World) : Outcome :=
  if argv.length < 3 then ⟨.returned 1, some .missing_vault_name, w⟩
  else run_vault env (TpmVault.close env (argv.getD 2 "")) w

/-- The function `cmd_list(argc, argv)`: only `VaultError` is caught, an exception of the
standard library thrown by `list` ends the process. -/
def cmd_list (env : Env) (w : World) : Outcome :=
  match TpmVault.new env w with
  | (.error e, w) => ⟨.returned 1, some (.error e), w⟩
  | (.ok (), w) =>
    match TpmVault.list w with
    | .error _ => ⟨.terminated, none, w⟩
    | .ok _ => ⟨.returned 0, none, w⟩

/-- The function `cmd_wipe(argc, argv)`; `confirmation` is the line that `std::getline`
reads from the standard input. -/
def cmd_wipe (env : Env) (argv : List String) (confirmation : String) (w : World) : Outcome :=
  if argv.length < 3 then ⟨.returned 1, some .missing_vault_name, w⟩
  else if confirmation != "yes" then ⟨.returned 0, none, w⟩
  else run_vault env (TpmVault.wipe env (argv.getD 2 "")) w

/-- The function `main(argc, argv)`; `argv` holds the program name and the arguments. -/
def main (env : Env) (argv : List String) (confirmation : String) (w : World) : Outcome :=
  if argv.length < 2 then ⟨.returned 1, some .usage, w⟩
  else
    let command := argv.getD 1 ""
    if command == "create" then cmd_create env argv w
    else if command == "open" then cmd_open env argv w
    else if command == "close" then cmd_close env argv w
    else if command == "list" then cmd_list env w
    else if command == "wipe" then cmd_wipe env argv confirmation w
    else if command == "-h" || command == "--help" || command == "help" then
      ⟨.returned 0, some .usage, w⟩
    else ⟨.returned 1, some (.unknown_command command), w⟩

/-- The invocation names one of the five commands with the arguments the
command needs: a vault name where one is taken, a size that parses when
`create` is given one, and the confirmation `yes` for `wipe`. -/
def complete_invocation (argv : List String) (confirmation : String) : Bool :=
  let command := argv.getD 1 ""
  (command == "create" && decide (3 ≤ argv.length) &&
      (decide (argv.length < 4) || (parse_size (argv.getD 3 "")).isOk)) ||
  ((command == "open" || command == "close") && decide (3 ≤ argv.length)) ||
  (command == "list" && decide (2 ≤ argv.length)) ||
  (command == "wipe" && decide (3 ≤ argv.length) && confirmation == "yes")

/-- The empty system of `world0`, run by the unprivileged user 1000. -/
def world_user : World := { world0 with euid := 1000 }

/-- An environment in which `Fapi_Initialize` fails and everything else succeeds. -/
def env_no_tpm : Env :=
  { env_ok with
    fapi := fun _ a =>
      match a with
      | .fapiInitialize => .other 393222
      | _ => .success }

/-- A directory named /x.img is the working directory, and a loop device
lists the same path as its backing file. -/
def world_cwd_img : World :=
  { world0 with cwd := "/x.img", dirs := ["/x.img"], loops := [("/dev/loop0", "/x.img")] }

/-- The working directory /home/u holds no vault; the mapping tpm-vault-s of
the vault `s` of the directory /home/v is open on /dev/loop5 and not
mounted. -/
def world_other_mapping : World :=
  { world0 with
    files := [("/home/v/s.img", 1048576)]
    loops := [("/dev/loop5", "/home/v/s.img")]
    mappers := [("tpm-vault-s", "/dev/loop5")] }

/-- The vault `s` exists, its key is sealed, and its image is already bound
to /dev/loop3. -/
def world_sealed_attached : World :=
  { world_sealed with loops := [("/dev/loop3", "/home/u/s.img")] }

/-- An environment in which `cryptsetup open` fails and everything else
succeeds. -/
def env_crypt_open_fail : Env :=
  { env_ok with
    spawn := fun _ a =>
      match a with
      | .cryptOpen _ _ _ => .exited 2
      | _ => .exited 0 }

/-- The container mapping `mapper_name` is open: the device-mapper table has
an entry of that name. -/
def mapping_open (w : World) (mapper_name : String) : Bool :=
  decide (mapper_name ∈ w.mappers.map Prod.fst)

/-- An environment in which `mkfs.ext4` fails and everything else succeeds. -/
def env_mkfs_fail : Env :=
  { env_ok with
    spawn := fun _ a =>
      match a with
      | .mkfs _ => .exited 1
      | _ => .exited 0 }

/-- An environment in which `umount` fails and everything else succeeds. -/
def env_umount_fail : Env :=
  { env_ok with
    spawn := fun _ a =>
      match a with
      | .umount _ => .exited 32
      | _ => .exited 0 }

/-- The image of the vault `s` is bound to /dev/loop0 and another device is
mounted at /home/u/s; no container mapping is open, and a regular file sits
at the path /dev/mapper/tpm-vault-s. -/
def world_regular_node : World :=
  { world0 with
    files := [("/home/u/s.img", 1048576), ("/dev/mapper/tpm-vault-s", 0)]
    loops := [("/dev/loop0", "/home/u/s.img")]
    dirs := ["/home/u/s"]
    mounts := [("/dev/sdb1", "/home/u/s")] }

/-- The image of the vault `s` was deleted while the vault was attached: the
binding of /dev/loop0 to /home/u/s.img is still there, the file is not. -/
def world_image_deleted : World :=
  { world0 with loops := [("/dev/loop0", "/home/u/s.img")] }

/-- The random stream whose byte number `i` is `i` modulo 256. -/
def counting (i : Nat) : Byte := ⟨i % 256, Nat.mod_lt i (by decide)⟩

/-- The 64 bytes 0, 1, ..., 63: what the stream `counting` yields first. -/
def sample_key : List Byte := (List.range 64).map counting

/-- An environment in which every action succeeds and the random source
yields the stream `counting`. -/
def env_counting : Env := { env_ok with urandom := fun _ => .stream counting }

/-- The vault `s` is open and a second file system is mounted over its mount
point. -/
def world_double_mount : World :=
  { world_opened with
    mounts := [("/dev/sdb1", "/home/u/s"), ("/dev/mapper/tpm-vault-s", "/home/u/s")] }

/-- Actions that neither close a container mapping nor create a file at
`mapper_path`. -/
def Action.keeps_mappings (mapper_path : String) : Action → Bool
  | .cryptClose _ => false
  | .fallocate p _ => p != mapper_path
  | .dd p _ => p != mapper_path
  | _ => true

/-- No regular file sits at `mapper_path` and every mapping of the list `ms`
is in the device-mapper table. -/
def keeps (mapper_path : String) (ms : List (String × String)) (W : World) : Prop :=
  file_exists W mapper_path = false ∧ ∀ e ∈ ms, e ∈ W.mappers

/-! ## Lemmas on the primitive operations -/

theorem execute_command_eq (env : Env) (a : Action) (w : World) :
    execute_command env a w =
      if succeeds env w.log a then (.ok 0, attempt env a w)
      else (match env.spawn w.log a with
            | .spawnFailed => .error .spawnFailed
            | .signalled => .ok (-1)
            | .exited c => .ok (c : Int), attempt env a w) := by
  unfold execute_command attempt succeeds
  cases h : env.spawn w.log a with
  | exited c =>
    by_cases hc : c = 0
    · subst hc; simp
    · simp [hc]
  | signalled => simp
  | spawnFailed => simp

theorem detach_eq (env : Env) (d : String) (w : World) :
    LoopManager.detach env d w =
      if succeeds env w.log (.losetupDetach d) then (.ok (), attempt env (.losetupDetach d) w)
      else (.error (spawn_error env w.log (.losetupDetach d) (.detachFailed d)),
            attempt env (.losetupDetach d) w) := by
  unfold LoopManager.detach spawn_error
  rw [execute_command_eq]
  unfold succeeds
  cases h : env.spawn w.log (.losetupDetach d) with
  | exited c =>
    by_cases hc : c = 0
    · subst hc; simp
    · simp [hc]
  | signalled => simp
  | spawnFailed => simp

theorem format_eq (env : Env) (d : String) (k : List Byte) (w : World) :
    LuksManager.format env d k w =
      if succeeds env w.log (.luksFormat d (k.length * 8) k) then
        (.ok (), attempt env (.luksFormat d (k.length * 8) k) w)
      else (.error (spawn_error env w.log (.luksFormat d (k.length * 8) k) (.formatFailed d)),
            attempt env (.luksFormat d (k.length * 8) k) w) := by
  unfold LuksManager.format spawn_error
  rw [execute_command_eq]
  unfold succeeds
  cases h : env.spawn w.log (.luksFormat d (k.length * 8) k) with
  | exited c =>
    by_cases hc : c = 0
    · subst hc; simp
    · simp [hc]
  | signalled => simp
  | spawnFailed => simp

theorem mkfs_eq (env : Env) (d : String) (w : World) :
    TpmVault.create_filesystem env d w =
      if succeeds env w.log (.mkfs d) then (.ok (), attempt env (.mkfs d) w)
      else (.error (spawn_error env w.log (.mkfs d) (.mkfsFailed d)),
            attempt env (.mkfs d) w) := by
  unfold TpmVault.create_filesystem spawn_error
  rw [execute_command_eq]
  unfold succeeds
  cases h : env.spawn w.log (.mkfs d) with
  | exited c =>
    by_cases hc : c = 0
    · subst hc; simp
    · simp [hc]
  | signalled => simp
  | spawnFailed => simp

theorem luks_open_eq (env : Env) (d m : String) (k : List Byte) (w : World) :
    LuksManager.open_ env d m k w =
      if LuksManager.is_open w m then (.error (.alreadyOpen m), w)
      else if succeeds env w.log (.cryptOpen d m k) then
        (.ok (), attempt env (.cryptOpen d m k) w)
      else (.error (spawn_error env w.log (.cryptOpen d m k) (.luksOpenFailed d)),
            attempt env (.cryptOpen d m k) w) := by
  unfold LuksManager.open_ spawn_error
  rw [execute_command_eq]
  unfold succeeds
  by_cases ho : LuksManager.is_open w m = true
  · simp [ho]
  · simp only [ho]
    cases h : env.spawn w.log (.cryptOpen d m k) with
    | exited c =>
      by_cases hc : c = 0
      · subst hc; simp
      · simp [hc]
    | signalled => simp
    | spawnFailed => simp

theorem luks_close_eq (env : Env) (m : String) (w : World) :
    LuksManager.close env m w =
      if LuksManager.is_open w m then
        if succeeds env w.log (.cryptClose m) then (.ok (), attempt env (.cryptClose m) w)
        else (.error (spawn_error env w.log (.cryptClose m) (.luksCloseFailed m)),
              attempt env (.cryptClose m) w)
      else (.ok (), w) := by
  unfold LuksManager.close spawn_error
  rw [execute_command_eq]
  unfold succeeds
  by_cases ho : LuksManager.is_open w m = true
  · simp only [ho]
    cases h : env.spawn w.log (.cryptClose m) with
    | exited c =>
      by_cases hc : c = 0
      · subst hc; simp
      · simp [hc]
    | signalled => simp
    | spawnFailed => simp
  · simp [ho]

theorem unmount_eq (env : Env) (p : String) (w : World) :
    TpmVault.unmount_filesystem env p w =
      if TpmVault.is_mounted w p then
        if succeeds env w.log (.umount p) then (.ok (), attempt env (.umount p) w)
        else (.error (spawn_error env w.log (.umount p) (.unmountFailed p)),
              attempt env (.umount p) w)
      else (.ok (), w) := by
  unfold TpmVault.unmount_filesystem spawn_error
  rw [execute_command_eq]
  unfold succeeds
  by_cases ho : TpmVault.is_mounted w p = true
  · simp only [ho]
    cases h : env.spawn w.log (.umount p) with
    | exited c =>
      by_cases hc : c = 0
      · subst hc; simp
      · simp [hc]
    | signalled => simp
    | spawnFailed => simp
  · simp [ho]

theorem std_remove_eq (env : Env) (p : String) (w : World) :
    std_remove env p w = attempt env (.remove p) w := by
  unfold std_remove attempt succeeds
  cases h : env.spawn w.log (.remove p) with
  | exited c =>
    cases c with
    | zero => simp [effect]
    | succ n => simp
  | signalled => simp
  | spawnFailed => simp

theorem ensure_directory_eq (env : Env) (p : String) (w : World) :
    ensure_directory env p w =
      if directory_exists w p then (.ok (), w)
      else if succeeds env w.log (.mkdir p) then (.ok (), attempt env (.mkdir p) w)
      else (.error (.mkdirFailed p), attempt env (.mkdir p) w) := by
  unfold ensure_directory attempt succeeds
  by_cases hd : directory_exists w p = true
  · simp [hd]
  · simp only [hd]
    cases h : env.spawn w.log (.mkdir p) with
    | exited c =>
      cases c with
      | zero => simp [effect]
      | succ n => simp
    | signalled => simp
    | spawnFailed => simp

theorem attempt_log (env : Env) (a : Action) (w : World) :
    (attempt env a w).log = w.log ++ [attempt_event env w.log a] := by
  unfold attempt attempt_event
  by_cases h : succeeds env w.log a = true
  · simp only [h, if_true, record]
    cases a <;> simp [effect]
  · simp only [h, record]
    simp at h
    simp [h]

/-! ## Frame lemmas: what an attempt leaves unchanged -/

@[simp] theorem attempt_cwd (env : Env) (a : Action) (w : World) :
    (attempt env a w).cwd = w.cwd := by
  unfold attempt; split <;> cases a <;> simp [record, effect]

@[simp] theorem attempt_euid (env : Env) (a : Action) (w : World) :
    (attempt env a w).euid = w.euid := by
  unfold attempt; split <;> cases a <;> simp [record, effect]

@[simp] theorem attempt_keystore (env : Env) (a : Action) (w : World) :
    (attempt env a w).keystore = w.keystore := by
  unfold attempt; split <;> cases a <;> simp [record, effect]

@[simp] theorem attempt_policies (env : Env) (a : Action) (w : World) :
    (attempt env a w).policies = w.policies := by
  unfold attempt; split <;> cases a <;> simp [record, effect]

@[simp] theorem attempt_policy_imported (env : Env) (a : Action) (w : World) :
    (attempt env a w).policy_imported = w.policy_imported := by
  unfold attempt; split <;> cases a <;> simp [record, effect]

@[simp] theorem attempt_released (env : Env) (a : Action) (w : World) :
    (attempt env a w).released = w.released := by
  unfold attempt; split <;> cases a <;> simp [record, effect]

@[simp] theorem attempt_files (env : Env) (a : Action) (w : World)
    (h : a.touches_files = false) : (attempt env a w).files = w.files := by
  unfold attempt; split <;> cases a <;> simp_all [record, effect]

@[simp] theorem attempt_dirs (env : Env) (a : Action) (w : World)
    (h : a.touches_dirs = false) : (attempt env a w).dirs = w.dirs := by
  unfold attempt; split <;> cases a <;> simp_all [record, effect]

@[simp] theorem attempt_loops (env : Env) (a : Action) (w : World)
    (h : a.touches_loops = false) : (attempt env a w).loops = w.loops := by
  unfold attempt; split <;> cases a <;> simp_all [record, effect]

@[simp] theorem attempt_mappers (env : Env) (a : Action) (w : World)
    (h : a.touches_mappers = false) : (attempt env a w).mappers = w.mappers := by
  unfold attempt; split <;> cases a <;> simp_all [record, effect]

@[simp] theorem attempt_mounts (env : Env) (a : Action) (w : World)
    (h : a.touches_mounts = false) : (attempt env a w).mounts = w.mounts := by
  unfold attempt; split <;> cases a <;> simp_all [record, effect]

theorem attempt_ok (env : Env) (a : Action) (w : World) (h : succeeds env w.log a = true) :
    attempt env a w = record a true (effect a (env.output w.log a) w) := by
  simp [attempt, h]

theorem attempt_failed (env : Env) (a : Action) (w : World)
    (h : succeeds env w.log a = false) : attempt env a w = record a false w := by
  simp [attempt, h]

theorem file_exists_congr (w w' : World) (p : String) (h : w'.files = w.files) :
    file_exists w' p = file_exists w p := by
  simp [file_exists, h]

theorem is_open_congr (w w' : World) (m : String) (h : w'.files = w.files) :
    LuksManager.is_open w' m = LuksManager.is_open w m := by
  simp [LuksManager.is_open, file_exists, h]

theorem luks_close_world (env : Env) (m : String) (w : World) :
    (LuksManager.close env m w).2 =
      if LuksManager.is_open w m then attempt env (.cryptClose m) w else w := by
  rw [luks_close_eq]; split <;> [split; skip] <;> rfl

theorem detach_world (env : Env) (d : String) (w : World) :
    (LoopManager.detach env d w).2 = attempt env (.losetupDetach d) w := by
  rw [detach_eq]; split <;> rfl

theorem attach_eq (env : Env) (p : String) (w : World) :
    LoopManager.attach env p w =
      if LoopManager.find_loop_for_file w p != "" then
        (.ok (LoopManager.find_loop_for_file w p), w)
      else if succeeds env w.log (.losetupAttach p) &&
          valid_loop_device (env.output w.log (.losetupAttach p)) then
        (.ok (env.output w.log (.losetupAttach p)), attempt env (.losetupAttach p) w)
      else (.error (.attachFailed p), attempt env (.losetupAttach p) w) := by
  unfold LoopManager.attach execute_command_output attempt succeeds valid_loop_device
  dsimp only
  by_cases hf : (LoopManager.find_loop_for_file w p != "") = true
  · simp only [hf, if_true]
  · simp only [hf]
    cases h : env.spawn w.log (.losetupAttach p) with
    | exited c =>
      by_cases hc : c = 0
      · subst hc
        cases hv : invalid_loop_device (env.output w.log (Action.losetupAttach p)) <;>
          simp [hv]
      · simp [hc]
    | signalled => simp
    | spawnFailed => simp

theorem create_image_file_eq (env : Env) (p : String) (size : Nat) (w : World) :
    TpmVault.create_image_file env p size w =
      if succeeds env w.log (.fallocate p size) then (.ok (), attempt env (.fallocate p size) w)
      else if env.spawn w.log (.fallocate p size) = .spawnFailed then
        (.error .spawnFailed, attempt env (.fallocate p size) w)
      else if succeeds env (attempt env (.fallocate p size) w).log
          (.dd p (size / (1024 * 1024))) then
        (.ok (), attempt env (.dd p (size / (1024 * 1024))) (attempt env (.fallocate p size) w))
      else
        (.error (spawn_error env (attempt env (.fallocate p size) w).log
            (.dd p (size / (1024 * 1024))) (.createImageFailed p)),
          attempt env (.dd p (size / (1024 * 1024))) (attempt env (.fallocate p size) w)) := by
  unfold TpmVault.create_image_file
  rw [execute_command_eq]
  by_cases h1 : succeeds env w.log (.fallocate p size) = true
  · simp [h1]
  · simp only [h1]
    have inner := execute_command_eq env (.dd p (size / (1024 * 1024)))
      (attempt env (.fallocate p size) w)
    unfold succeeds at h1
    cases h : env.spawn w.log (.fallocate p size) with
    | exited c =>
      have hc : c ≠ 0 := by intro hc; subst hc; simp [h] at h1
      simp only [hc, Bool.false_eq_true, if_false, reduceCtorEq]
      have : ((c : Int) != 0) = true := by simp [hc]
      simp only [this, if_true]
      rw [inner]
      unfold spawn_error succeeds
      cases h2 : env.spawn (attempt env (.fallocate p size) w).log
          (.dd p (size / (1024 * 1024))) with
      | exited c2 =>
        by_cases hc2 : c2 = 0
        · subst hc2; simp
        · simp [hc2]
      | signalled => simp
      | spawnFailed => simp
    | signalled =>
      simp only [Bool.false_eq_true, if_false, reduceCtorEq]
      have : (((-1 : Int)) != 0) = true := by decide
      simp only [this, if_true]
      rw [inner]
      unfold spawn_error succeeds
      cases h2 : env.spawn (attempt env (.fallocate p size) w).log
          (.dd p (size / (1024 * 1024))) with
      | exited c2 =>
        by_cases hc2 : c2 = 0
        · subst hc2; simp
        · simp [hc2]
      | signalled => simp
      | spawnFailed => simp
    | spawnFailed => simp

/-! ## The world each step leaves -/

theorem create_image_file_world (env : Env) (p : String) (size : Nat) (w : World) :
    (TpmVault.create_image_file env p size w).2 = attempt env (.fallocate p size) w ∨
    (TpmVault.create_image_file env p size w).2 =
      attempt env (.dd p (size / (1024 * 1024))) (attempt env (.fallocate p size) w) := by
  rw [create_image_file_eq]
  split
  · exact Or.inl rfl
  · split
    · exact Or.inl rfl
    · split <;> exact Or.inr rfl

theorem attach_world (env : Env) (p : String) (w : World) :
    (LoopManager.attach env p w).2 =
      if LoopManager.find_loop_for_file w p != "" then w
      else attempt env (.losetupAttach p) w := by
  rw [attach_eq]
  split
  · rfl
  · split <;> rfl

theorem format_world (env : Env) (d : String) (k : List Byte) (w : World) :
    (LuksManager.format env d k w).2 = attempt env (.luksFormat d (k.length * 8) k) w := by
  rw [format_eq]; split <;> rfl

theorem mkfs_world (env : Env) (d : String) (w : World) :
    (TpmVault.create_filesystem env d w).2 = attempt env (.mkfs d) w := by
  rw [mkfs_eq]; split <;> rfl

theorem luks_open_world (env : Env) (d m : String) (k : List Byte) (w : World) :
    (LuksManager.open_ env d m k w).2 =
      if LuksManager.is_open w m then w else attempt env (.cryptOpen d m k) w := by
  rw [luks_open_eq]
  split
  · rfl
  · split <;> rfl

theorem unmount_world (env : Env) (p : String) (w : World) :
    (TpmVault.unmount_filesystem env p w).2 =
      if TpmVault.is_mounted w p then attempt env (.umount p) w else w := by
  rw [unmount_eq]
  split
  · split <;> rfl
  · rfl

theorem fapi_import_os (env : Env) (p : String) (w : World) :
    os_tables (Fapi_Import env p w).2 = os_tables w := by
  unfold Fapi_Import; dsimp only; repeat' split
  all_goals rfl

theorem fapi_delete_os (env : Env) (p : String) (w : World) :
    os_tables (Fapi_Delete env p w).2 = os_tables w := by
  unfold Fapi_Delete; dsimp only; repeat' split
  all_goals rfl

theorem fapi_create_seal_os (env : Env) (p q : String) (d : List Byte) (w : World) :
    os_tables (Fapi_CreateSeal env p q d w).2 = os_tables w := by
  unfold Fapi_CreateSeal; dsimp only; repeat' split
  all_goals rfl

theorem ensure_pcr_policy_os (env : Env) (w : World) :
    os_tables (TpmManager.ensure_pcr_policy env w).2 = os_tables w := by
  unfold TpmManager.ensure_pcr_policy
  split
  · rfl
  · have h := fapi_import_os env TpmManager.POLICY_PATH w
    rcases hI : Fapi_Import env TpmManager.POLICY_PATH w with ⟨rc, w1⟩
    rw [hI] at h
    dsimp only at h ⊢
    split
    · exact h
    · split <;> exact h

theorem seal_os_tables (env : Env) (name : String) (data : List Byte) (w : World) :
    os_tables (TpmManager.seal env name data w).2 = os_tables w := by
  unfold TpmManager.seal
  split
  · rfl
  · have h1 := ensure_pcr_policy_os env w
    rcases hP : TpmManager.ensure_pcr_policy env w with ⟨r1, w1⟩
    rw [hP] at h1
    dsimp only at h1 ⊢
    cases r1 with
    | error e => exact h1
    | ok u =>
      dsimp only
      have h2 := fapi_delete_os env (TpmManager.get_seal_path name) w1
      rcases hD : Fapi_Delete env (TpmManager.get_seal_path name) w1 with ⟨rc2, w2⟩
      rw [hD] at h2
      dsimp only at h2 ⊢
      have h3 := fapi_create_seal_os env (TpmManager.get_seal_path name)
        TpmManager.POLICY_PATH data w2
      rcases hC : Fapi_CreateSeal env (TpmManager.get_seal_path name)
        TpmManager.POLICY_PATH data w2 with ⟨rc3, w3⟩
      rw [hC] at h3
      dsimp only at h3 ⊢
      split <;> exact h3.trans (h2.trans h1)

/-! ## The catch blocks -/

theorem create_catch_eq (env : Env) (name ld : String) (w : World) :
    TpmVault.create_catch env name ld w =
      (let wa := if LuksManager.is_open w (LuksManager.get_mapper_name name) then
          attempt env (.cryptClose (LuksManager.get_mapper_name name)) w else w
       let wb := if ld != "" then attempt env (.losetupDetach ld) wa else wa
       if file_exists w (TpmVault.get_image_path w name) then
         attempt env (.remove (TpmVault.get_image_path w name)) wb
       else wb) := by
  unfold TpmVault.create_catch
  simp only [luks_close_world, detach_world, std_remove_eq]
  by_cases ho : LuksManager.is_open w (LuksManager.get_mapper_name name) = true <;>
    by_cases hl : (ld != "") = true <;>
    simp only [ho, hl, if_true, if_false, Bool.false_eq_true] <;>
    rw [file_exists_congr w _ _ (by simp)]

theorem create_catch_log (env : Env) (name ld : String) (w : World) :
    (TpmVault.create_catch env name ld w).log = w.log ++ create_rollback_events env name ld w := by
  rw [create_catch_eq]
  unfold create_rollback_events
  dsimp only
  by_cases ho : LuksManager.is_open w (LuksManager.get_mapper_name name) = true <;>
    by_cases hl : (ld != "") = true <;>
    by_cases hf : file_exists w (TpmVault.get_image_path w name) = true <;>
    simp [ho, hl, hf, attempt_log]


/-! ## The guarded sequence of create -/

theorem create_inv_attempt (env : Env) (w : World) (image ld : String) (W : World)
    (a : Action) (hl : a.touches_loops = false) (hm : a.touches_mounts = false)
    (h : create_inv w image ld W) : create_inv w image ld (attempt env a W) := by
  unfold create_inv at *
  rw [attempt_mounts env a W hm, attempt_loops env a W hl, attempt_cwd]
  exact h

theorem create_inv_os (w : World) (image ld : String) (W W' : World)
    (ho : os_tables W' = os_tables W) (h : create_inv w image ld W) :
    create_inv w image ld W' := by
  unfold create_inv at *
  simp only [os_tables, Prod.mk.injEq] at ho
  obtain ⟨h1, _, _, _, h5, _, h7⟩ := ho
  rw [h1, h7, h5]
  exact h

theorem find_loop_none (w : World) (p : String) (h : ∀ d, (d, p) ∉ w.loops) :
    LoopManager.find_loop_for_file w p = "" := by
  unfold LoopManager.find_loop_for_file realpath
  split
  · rfl
  · rename_i abs habs
    split at habs
    · simp only [Option.some.injEq] at habs
      subst habs
      split
      · rename_i b hb
        have hmem := List.mem_of_find?_eq_some hb
        have hp := List.find?_some hb
        simp only [beq_iff_eq] at hp
        exact absurd (by rw [← hp]; exact hmem) (h b.1)
      · rfl
    · simp at habs

theorem valid_loop_device_ne (out : String) (h : valid_loop_device out = true) : out ≠ "" := by
  intro he
  subst he
  simp [valid_loop_device, invalid_loop_device] at h

theorem create_try_inv (env : Env) (name : String) (size : Nat) (key : List Byte) (w : World)
    (hnoloop : ∀ d, (d, TpmVault.get_image_path w name) ∉ w.loops)
    (hvalid : ∀ h, succeeds env h (.losetupAttach (TpmVault.get_image_path w name)) = true →
      valid_loop_device (env.output h (.losetupAttach (TpmVault.get_image_path w name))) = true) :
    create_inv w (TpmVault.get_image_path w name)
      (TpmVault.create_try env name size key w).2.1
      (TpmVault.create_try env name size key w).2.2 := by
  unfold TpmVault.create_try
  dsimp only
  generalize TpmVault.get_image_path w name = image at *
  generalize LuksManager.get_mapper_name name = m at *
  have inv0 : create_inv w image "" w := ⟨rfl, rfl, fun d hd => absurd hd (hnoloop d)⟩
  -- create the image file
  have W1 := create_image_file_world env image size w
  rcases h1 : TpmVault.create_image_file env image size w with ⟨r1, w1⟩
  rw [h1] at W1
  dsimp only at W1
  have inv1 : create_inv w image "" w1 := by
    rcases W1 with h | h <;> rw [h]
    · exact create_inv_attempt _ _ _ _ _ _ rfl rfl inv0
    · exact create_inv_attempt _ _ _ _ _ _ rfl rfl
        (create_inv_attempt _ _ _ _ _ _ rfl rfl inv0)
  cases r1 with
  | error e => exact inv1
  | ok u =>
  dsimp only
  -- attach
  have hfind : LoopManager.find_loop_for_file w1 image = "" :=
    find_loop_none w1 image (fun d hd => (inv1.2.2 d hd).2 rfl)
  rw [attach_eq, hfind]
  simp only [bne_self_eq_false, Bool.false_eq_true, if_false]
  by_cases hs : succeeds env w1.log (.losetupAttach image) = true
  case neg =>
    simp only [hs, Bool.false_and, Bool.false_eq_true, if_false]
    rw [attempt_failed _ _ _ (by simpa using hs)]
    exact inv1
  case pos =>
  have hv := hvalid _ hs
  simp only [hs, hv, Bool.and_self, if_true]
  generalize hout : env.output w1.log (.losetupAttach image) = out at *
  have inv2 : create_inv w image out (attempt env (.losetupAttach image) w1) := by
    rw [attempt_ok _ _ _ hs, hout]
    refine ⟨inv1.1, inv1.2.1, ?_⟩
    intro d hd
    simp only [record, effect, List.mem_append, List.mem_singleton, Prod.mk.injEq] at hd
    rcases hd with hd | hd
    · exact absurd rfl (inv1.2.2 d hd).2
    · exact ⟨hd.1, valid_loop_device_ne out hv⟩
  generalize attempt env (.losetupAttach image) w1 = w2 at *
  -- format
  have W3 := format_world env out key w2
  rcases h3 : LuksManager.format env out key w2 with ⟨r3, w3⟩
  rw [h3] at W3
  dsimp only at W3
  have inv3 : create_inv w image out w3 := by
    rw [W3]; exact create_inv_attempt _ _ _ _ _ _ rfl rfl inv2
  cases r3 with
  | error e => exact inv3
  | ok u =>
  dsimp only
  -- open the container
  have W4 := luks_open_world env out m key w3
  rcases h4 : LuksManager.open_ env out m key w3 with ⟨r4, w4⟩
  rw [h4] at W4
  dsimp only at W4
  have inv4 : create_inv w image out w4 := by
    rw [W4]; split
    · exact inv3
    · exact create_inv_attempt _ _ _ _ _ _ rfl rfl inv3
  cases r4 with
  | error e => exact inv4
  | ok u =>
  dsimp only
  -- make the file system
  have W5 := mkfs_world env (LuksManager.get_mapper_path m) w4
  rcases h5 : TpmVault.create_filesystem env (LuksManager.get_mapper_path m) w4 with ⟨r5, w5⟩
  rw [h5] at W5
  dsimp only at W5
  have inv5 : create_inv w image out w5 := by
    rw [W5]; exact create_inv_attempt _ _ _ _ _ _ rfl rfl inv4
  cases r5 with
  | error e => exact inv5
  | ok u =>
  dsimp only
  -- close the container
  have W6 := luks_close_world env m w5
  rcases h6 : LuksManager.close env m w5 with ⟨r6, w6⟩
  rw [h6] at W6
  dsimp only at W6
  have inv6 : create_inv w image out w6 := by
    rw [W6]; split
    · exact create_inv_attempt _ _ _ _ _ _ rfl rfl inv5
    · exact inv5
  cases r6 with
  | error e => exact inv6
  | ok u =>
  dsimp only
  -- detach
  rw [detach_eq]
  by_cases hd : succeeds env w6.log (.losetupDetach out) = true
  case neg =>
    simp only [hd, Bool.false_eq_true, if_false]
    rw [attempt_failed _ _ _ (by simpa using hd)]
    exact inv6
  case pos =>
  simp only [hd, if_true]
  have inv7 : create_inv w image "" (attempt env (.losetupDetach out) w6) := by
    rw [attempt_ok _ _ _ hd]
    refine ⟨inv6.1, inv6.2.1, ?_⟩
    intro d hmem
    simp only [record, effect, List.mem_filter, bne_iff_ne, ne_eq] at hmem
    exact absurd (inv6.2.2 d hmem.1).1 hmem.2
  generalize attempt env (.losetupDetach out) w6 = w7 at *
  -- seal
  have W8 := seal_os_tables env name key w7
  rcases h8 : TpmManager.seal env name key w7 with ⟨r8, w8⟩
  rw [h8] at W8
  dsimp only at W8
  have inv8 : create_inv w image "" w8 := create_inv_os _ _ _ _ _ W8 inv7
  cases r8 with
  | error e => exact inv8
  | ok u => exact inv8

theorem loops_after_detach (env : Env) (d : String) (w : World)
    (h : succeeds env w.log (.losetupDetach d) = true) :
    (attempt env (.losetupDetach d) w).loops = w.loops.filter (fun b => b.1 != d) := by
  rw [attempt_ok _ _ _ h]
  simp [record, effect]

theorem absent_after_remove (env : Env) (p : String) (w : World)
    (h : succeeds env w.log (.remove p) = true) :
    file_exists (attempt env (.remove p) w) p = false := by
  rw [attempt_ok _ _ _ h]
  simp [file_exists, record, effect]

theorem create_catch_post (env : Env) (name ld : String) (w1 : World)
    (hclean : ∀ ev ∈ create_rollback_events env name ld w1, ev.ok = true)
    (hinv : ∀ d, (d, TpmVault.get_image_path w1 name) ∈ w1.loops → d = ld ∧ ld ≠ "") :
    file_exists (TpmVault.create_catch env name ld w1) (TpmVault.get_image_path w1 name) = false ∧
    (∀ d, (d, TpmVault.get_image_path w1 name) ∉ (TpmVault.create_catch env name ld w1).loops) ∧
    (TpmVault.create_catch env name ld w1).mounts = w1.mounts ∧
    (TpmVault.create_catch env name ld w1).cwd = w1.cwd := by
  rw [create_catch_eq]
  unfold create_rollback_events at hclean
  dsimp only at hclean ⊢
  generalize TpmVault.get_image_path w1 name = image at *
  generalize LuksManager.get_mapper_name name = m at *
  -- the mapping
  have hA : ∃ wa, (if LuksManager.is_open w1 m = true then attempt env (.cryptClose m) w1 else w1) = wa ∧
      wa.loops = w1.loops ∧ wa.files = w1.files ∧
      wa.mounts = w1.mounts ∧ wa.cwd = w1.cwd ∧
      wa.log = w1.log ++ (if LuksManager.is_open w1 m = true then
        [attempt_event env w1.log (.cryptClose m)] else []) := by
    refine ⟨_, rfl, ?_⟩
    by_cases ho : LuksManager.is_open w1 m = true
    · have hs : succeeds env w1.log (.cryptClose m) = true := by
        have := hclean (attempt_event env w1.log (.cryptClose m)) (by simp [ho])
        simpa [attempt_event] using this
      simp only [ho, if_true]
      exact ⟨by simp, by simp, by simp, by simp, attempt_log _ _ _⟩
    · simp only [if_neg ho]
      simp
  obtain ⟨wa, hwa, hAloops, hAfiles, hAmounts, hAcwd, hAlog⟩ := hA
  rw [hwa]
  rw [← hAlog] at hclean
  -- the loop device
  have hB : ∃ wb, (if (ld != "") = true then attempt env (.losetupDetach ld) wa else wa) = wb ∧
      (∀ d, (d, image) ∉ wb.loops) ∧ wb.files = w1.files ∧
      wb.mounts = w1.mounts ∧ wb.cwd = w1.cwd ∧
      wb.log = wa.log ++ (if (ld != "") = true then
        [attempt_event env wa.log (.losetupDetach ld)] else []) := by
    refine ⟨_, rfl, ?_⟩
    by_cases hl : (ld != "") = true
    · have hs : succeeds env wa.log (.losetupDetach ld) = true := by
        have := hclean (attempt_event env wa.log (.losetupDetach ld)) (by simp [hl])
        simpa [attempt_event] using this
      simp only [hl, if_true]
      refine ⟨?_, by simp [hAfiles], by simp [hAmounts], by simp [hAcwd], attempt_log _ _ _⟩
      intro d hd
      rw [loops_after_detach env ld wa hs, hAloops] at hd
      simp only [List.mem_filter, bne_iff_ne, ne_eq] at hd
      exact hd.2 (hinv d hd.1).1
    · simp only [if_neg hl]
      refine ⟨?_, hAfiles, hAmounts, hAcwd, by simp⟩
      intro d hd
      rw [hAloops] at hd
      have := (hinv d hd).2
      simp at hl
      exact this hl
  obtain ⟨wb, hwb, hBloops, hBfiles, hBmounts, hBcwd, hBlog⟩ := hB
  rw [hwb]
  rw [← hBlog] at hclean
  -- the image file
  by_cases hf : file_exists w1 image = true
  · have hs : succeeds env wb.log (.remove image) = true := by
      have := hclean (attempt_event env wb.log (.remove image)) (by simp [hf])
      simpa [attempt_event] using this
    simp only [hf, if_true]
    refine ⟨absent_after_remove env image wb hs, ?_, by simp [hBmounts], by simp [hBcwd]⟩
    intro d; rw [attempt_loops env (.remove image) wb rfl]; exact hBloops d
  · simp only [if_neg hf]
    refine ⟨?_, hBloops, hBmounts, hBcwd⟩
    rw [file_exists_congr w1 wb image hBfiles]
    simpa using hf

theorem random_bytes_os (env : Env) (n : Nat) (w : World) :
    os_tables (generate_random_bytes env n w).2 = os_tables w := by
  unfold generate_random_bytes; split <;> rfl

theorem attach_ok_ne (env : Env) (p : String) (w w' : World) (dev : String)
    (h : LoopManager.attach env p w = (.ok dev, w')) : dev ≠ "" := by
  rw [attach_eq] at h
  split at h
  · rename_i hf
    simp only [Prod.mk.injEq, Except.ok.injEq] at h
    rw [← h.1]; simpa using hf
  · split at h
    · rename_i hs
      simp only [Prod.mk.injEq, Except.ok.injEq] at h
      rw [← h.1]
      simp only [Bool.and_eq_true] at hs
      exact valid_loop_device_ne _ hs.2
    · simp at h

theorem luks_open_ok (env : Env) (d m : String) (k : List Byte) (w w' : World)
    (h : LuksManager.open_ env d m k w = (.ok (), w')) :
    LuksManager.is_open w m = false ∧ succeeds env w.log (.cryptOpen d m k) = true ∧
    w' = attempt env (.cryptOpen d m k) w := by
  rw [luks_open_eq] at h
  split at h
  · simp at h
  · rename_i ho
    split at h
    · rename_i hs
      simp only [Prod.mk.injEq, true_and] at h
      exact ⟨by simpa using ho, hs, h.symm⟩
    · simp at h

theorem mount_filesystem_eq (env : Env) (d p : String) (w : World) :
    TpmVault.mount_filesystem env d p w =
      if directory_exists w p then mount_step env d p w
      else if succeeds env w.log (.mkdir p) then mount_step env d p (attempt env (.mkdir p) w)
      else (.error (.mkdirFailed p), attempt env (.mkdir p) w) := by
  have hstep : ∀ W : World,
      (match execute_command env (.mount d p) W with
        | (.error e, w) => ((.error e, w) : Result Unit)
        | (.ok ret, w) =>
          if ret != 0 then (.error (.mountFailed d p), w) else (.ok (), w))
      = mount_step env d p W := by
    intro W
    rw [execute_command_eq]
    unfold mount_step spawn_error succeeds
    cases h : env.spawn W.log (.mount d p) with
    | exited c =>
      by_cases hc : c = 0
      · subst hc; simp
      · simp [hc]
    | signalled => simp
    | spawnFailed => simp
  unfold TpmVault.mount_filesystem
  rw [ensure_directory_eq]
  by_cases hd : directory_exists w p = true
  · simp only [hd, if_true]
    exact hstep w
  · simp only [hd, if_false, Bool.false_eq_true]
    by_cases hs : succeeds env w.log (.mkdir p) = true
    · simp only [hs, if_true]
      exact hstep _
    · simp only [hs, if_false, Bool.false_eq_true]

theorem mount_filesystem_mappers (env : Env) (d p : String) (w : World) :
    (TpmVault.mount_filesystem env d p w).2.mappers = w.mappers := by
  rw [mount_filesystem_eq]
  unfold mount_step
  repeat' split
  all_goals simp

theorem open_catch_eq (env : Env) (name ld : String) (w : World) :
    TpmVault.open_catch env name ld w =
      (let wa := if LuksManager.is_open w (LuksManager.get_mapper_name name) then
          attempt env (.cryptClose (LuksManager.get_mapper_name name)) w else w
       if ld != "" then attempt env (.losetupDetach ld) wa else wa) := by
  unfold TpmVault.open_catch
  simp only [luks_close_world, detach_world]
  by_cases ho : LuksManager.is_open w (LuksManager.get_mapper_name name) = true <;>
    simp [ho]

theorem fapi_unseal_os (env : Env) (p : String) (w : World) :
    os_tables (Fapi_Unseal env p w).2.2 = os_tables w := by
  unfold Fapi_Unseal
  split
  · rfl
  · dsimp only; split <;> rfl

theorem unseal_os (env : Env) (name : String) (w : World) :
    os_tables (TpmManager.unseal env name w).2 = os_tables w := by
  unfold TpmManager.unseal
  dsimp only
  have h := fapi_unseal_os env (TpmManager.get_seal_path name) w
  rcases hU : Fapi_Unseal env (TpmManager.get_seal_path name) w with ⟨rc, data, w1⟩
  rw [hU] at h
  dsimp only at h ⊢
  repeat' split
  all_goals exact h

theorem is_mounted_congr (w w' : World) (p : String) (hf : w'.files = w.files)
    (hd : w'.dirs = w.dirs) (hm : w'.mounts = w.mounts) :
    TpmVault.is_mounted w' p = TpmVault.is_mounted w p := by
  unfold TpmVault.is_mounted realpath file_exists directory_exists
  rw [hf, hd, hm]

theorem find_loop_congr (w w' : World) (p : String) (hf : w'.files = w.files)
    (hd : w'.dirs = w.dirs) (hl : w'.loops = w.loops) :
    LoopManager.find_loop_for_file w' p = LoopManager.find_loop_for_file w p := by
  unfold LoopManager.find_loop_for_file realpath file_exists directory_exists
  rw [hf, hd, hl]

theorem not_mem_eraseP_of_count (l : List (String × String)) (p : String)
    (h : (l.map Prod.snd).count p ≤ 1) :
    p ∉ (l.eraseP (fun e => e.2 == p)).map Prod.snd := by
  induction l with
  | nil => simp
  | cons x xs ih =>
    by_cases hx : x.2 = p
    · have hb : (x.2 == p) = true := by simpa using hx
      rw [List.eraseP_cons]
      simp only [hb, cond_true]
      simp only [List.map_cons, hx, List.count_cons_self] at h
      have h0 : (xs.map Prod.snd).count p = 0 := by omega
      exact List.count_eq_zero.mp h0
    · have hb : ¬ (x.2 == p) = true := by simpa using hx
      rw [List.eraseP_cons]
      simp only [hb, cond_false]
      simp only [List.map_cons, List.mem_cons, not_or]
      refine ⟨fun h' => hx h'.symm, ih ?_⟩
      simp only [List.map_cons] at h
      rw [List.count_cons_of_ne (fun h' => hx h'.symm)] at h
      exact h

theorem find_loop_mem (w : World) (p d : String) (h : LoopManager.find_loop_for_file w p = d)
    (hd : d ≠ "") : (d, p) ∈ w.loops := by
  unfold LoopManager.find_loop_for_file realpath at h
  split at h
  · exact absurd h.symm hd
  · rename_i abs habs
    split at habs
    · simp only [Option.some.injEq] at habs
      subst habs
      split at h
      · rename_i b hb
        have hmem := List.mem_of_find?_eq_some hb
        have hp := List.find?_some hb
        simp only [beq_iff_eq] at hp
        rw [← h, ← hp]; exact hmem
      · exact absurd h.symm hd
    · simp at habs

theorem not_mounted_after_umount (env : Env) (p : String) (w : World)
    (hs : succeeds env w.log (.umount p) = true) (h1 : at_most_one_mount w p) :
    TpmVault.is_mounted (attempt env (.umount p) w) p = false := by
  rw [attempt_ok _ _ _ hs]
  unfold TpmVault.is_mounted
  split
  · rfl
  · rename_i abs habs
    have : abs = p := by
      unfold realpath at habs
      split at habs
      · simpa using habs.symm
      · simp at habs
    subst this
    simp only [record, effect, decide_eq_false_iff_not]
    exact not_mem_eraseP_of_count _ _ h1

theorem close_step_unmount (env : Env) (p : String) (w : World)
    (h1 : (TpmVault.unmount_filesystem env p w).1 = .ok ()) (hm : at_most_one_mount w p) :
    TpmVault.is_mounted (TpmVault.unmount_filesystem env p w).2 p = false ∧
    (realpath w p ≠ none → p ∉ (TpmVault.unmount_filesystem env p w).2.mounts.map Prod.snd) ∧
    (TpmVault.unmount_filesystem env p w).2.files = w.files ∧
    (TpmVault.unmount_filesystem env p w).2.dirs = w.dirs ∧
    (TpmVault.unmount_filesystem env p w).2.loops = w.loops ∧
    (TpmVault.unmount_filesystem env p w).2.mappers = w.mappers ∧
    (TpmVault.unmount_filesystem env p w).2.cwd = w.cwd := by
  rw [unmount_eq] at h1 ⊢
  by_cases hmnt : TpmVault.is_mounted w p = true
  · simp only [hmnt, if_true] at h1 ⊢
    by_cases hs : succeeds env w.log (.umount p) = true
    · simp only [hs, if_true]
      refine ⟨not_mounted_after_umount env p w hs hm, ?_, by simp, by simp, by simp, by simp,
        by simp⟩
      intro _
      rw [attempt_ok _ _ _ hs]
      simp only [record, effect]
      exact not_mem_eraseP_of_count _ _ hm
    · simp [hs] at h1
  · simp only [if_neg hmnt]
    refine ⟨by simpa using hmnt, ?_, trivial, trivial, trivial, trivial, trivial⟩
    intro hr
    unfold TpmVault.is_mounted at hmnt
    unfold realpath at hr hmnt
    split at hr
    · rename_i hex
      simp only [hex, if_true] at hmnt
      simpa using hmnt
    · exact absurd rfl hr

theorem close_step_luks (env : Env) (m : String) (w : World)
    (h2 : (LuksManager.close env m w).1 = .ok ()) :
    (LuksManager.close env m w).2.files = w.files ∧
    (LuksManager.close env m w).2.dirs = w.dirs ∧
    (LuksManager.close env m w).2.loops = w.loops ∧
    (LuksManager.close env m w).2.mounts = w.mounts ∧
    (LuksManager.close env m w).2.cwd = w.cwd := by
  rw [luks_close_eq] at h2 ⊢
  by_cases ho : LuksManager.is_open w m = true
  · simp only [ho, if_true] at h2 ⊢
    by_cases hs : succeeds env w.log (.cryptClose m) = true
    · simp only [hs, if_true]
      exact ⟨by simp, by simp, by simp, by simp, by simp⟩
    · simp [hs] at h2
  · simp only [if_neg ho]
    exact ⟨trivial, trivial, trivial, trivial, trivial⟩

theorem find_loop_only_empty (w : World) (p : String) (hex : file_exists w p = true)
    (hb : at_most_one_binding w p) (hf : LoopManager.find_loop_for_file w p = "") :
    ∀ d, (d, p) ∈ w.loops → d = "" := by
  intro d hd
  unfold LoopManager.find_loop_for_file realpath at hf
  simp only [hex, Bool.true_or, if_true] at hf
  split at hf
  · rename_i b hbf
    have hmem := List.mem_of_find?_eq_some hbf
    have hp := List.find?_some hbf
    simp only [beq_iff_eq] at hp
    have : (b.1, p) ∈ w.loops := by rw [← hp]; exact hmem
    rw [hb d b.1 hd this]; exact hf
  · rename_i hnone
    have := List.find?_eq_none.mp hnone (d, p) hd
    simp at this

theorem close_step_detach (env : Env) (p : String) (w : World)
    (h3 : (TpmVault.close_detach env p w).1 = .ok ()) (hb : at_most_one_binding w p) :
    LoopManager.find_loop_for_file (TpmVault.close_detach env p w).2 p = "" ∧
    (file_exists w p = true → ∀ d, d ≠ "" → (d, p) ∉ (TpmVault.close_detach env p w).2.loops) ∧
    (TpmVault.close_detach env p w).2.files = w.files ∧
    (TpmVault.close_detach env p w).2.dirs = w.dirs ∧
    (TpmVault.close_detach env p w).2.mappers = w.mappers ∧
    (TpmVault.close_detach env p w).2.mounts = w.mounts ∧
    (TpmVault.close_detach env p w).2.cwd = w.cwd := by
  unfold TpmVault.close_detach at h3 ⊢
  dsimp only at h3 ⊢
  by_cases hf : LoopManager.find_loop_for_file w p = ""
  · simp only [hf, bne_self_eq_false, Bool.false_eq_true, if_false]
    refine ⟨trivial, ?_, trivial, trivial, trivial, trivial, trivial⟩
    intro hex d hd hmem
    exact hd (find_loop_only_empty w p hex hb hf d hmem)
  · have hne : (LoopManager.find_loop_for_file w p != "") = true := by simpa using hf
    simp only [hne, if_true] at h3 ⊢
    rw [detach_eq] at h3 ⊢
    by_cases hs : succeeds env w.log (.losetupDetach (LoopManager.find_loop_for_file w p)) = true
    · simp only [hs, if_true]
      have hmem := find_loop_mem w p _ rfl hf
      have hnone : ∀ d, (d, p) ∉
          (attempt env (.losetupDetach (LoopManager.find_loop_for_file w p)) w).loops := by
        intro d hd
        rw [loops_after_detach _ _ _ hs] at hd
        simp only [List.mem_filter, bne_iff_ne, ne_eq] at hd
        exact hd.2 (hb d _ hd.1 hmem)
      exact ⟨find_loop_none _ p hnone, fun _ d _ => hnone d, by simp, by simp, by simp,
        by simp, by simp⟩
    · simp [hs] at h3

theorem close_steps (env : Env) (name : String) (w : World) :
    let s1 := TpmVault.unmount_filesystem env (TpmVault.get_mount_path w name) w
    let s2 := LuksManager.close env (LuksManager.get_mapper_name name) s1.2
    let s3 := TpmVault.close_detach env (TpmVault.get_image_path w name) s2.2
    TpmVault.close env name w = (first_failure [s1.1, s2.1, s3.1], s3.2) ∧
    ((TpmVault.close env name w).1 = .ok () ↔
      s1.1 = .ok () ∧ s2.1 = .ok () ∧ s3.1 = .ok ()) := by
  unfold TpmVault.close
  dsimp only
  rcases h1 : TpmVault.unmount_filesystem env (TpmVault.get_mount_path w name) w with ⟨r1, w1⟩
  dsimp only
  rcases h2 : LuksManager.close env (LuksManager.get_mapper_name name) w1 with ⟨r2, w2⟩
  dsimp only
  rcases h3 : TpmVault.close_detach env (TpmVault.get_image_path w name) w2 with ⟨r3, w3⟩
  dsimp only
  rcases r1 with e1 | ⟨⟩ <;> rcases r2 with e2 | ⟨⟩ <;> rcases r3 with e3 | ⟨⟩ <;>
    simp [remember, first_failure]

theorem fapi_import_log (env : Env) (p : String) (w : World) :
    ∃ ok, (Fapi_Import env p w).2.log = w.log ++ [⟨.fapiImport p, ok⟩] ∧
      (Fapi_Import env p w).2.keystore = w.keystore := by
  unfold Fapi_Import
  dsimp only
  generalize (if p ∈ w.policies then FapiRc.pathAlreadyExists
    else env.fapi w.log (.fapiImport p)) = rc
  by_cases h : rc = .success
  · rw [if_pos h]; exact ⟨true, rfl, rfl⟩
  · rw [if_neg h]; exact ⟨false, rfl, rfl⟩

theorem fapi_delete_log (env : Env) (p : String) (w : World) :
    ∃ ok, (Fapi_Delete env p w).2.log = w.log ++ [⟨.fapiDelete p, ok⟩] := by
  unfold Fapi_Delete
  dsimp only
  generalize (if p ∈ w.keystore.map Prod.fst then env.fapi w.log (.fapiDelete p)
    else notFoundRc (env.fapi w.log (.fapiDelete p))) = rc
  by_cases h : rc = .success
  · rw [if_pos h]; exact ⟨true, rfl⟩
  · rw [if_neg h]; exact ⟨false, rfl⟩

theorem fapi_create_seal_ok (env : Env) (p q : String) (d : List Byte) (w : World)
    (h : (Fapi_CreateSeal env p q d w).1 = .success) :
    (Fapi_CreateSeal env p q d w).2.log = w.log ++ [⟨.fapiCreateSeal p q d, true⟩] ∧
    (Fapi_CreateSeal env p q d w).2.keystore = (p, d) :: w.keystore := by
  unfold Fapi_CreateSeal at h ⊢
  dsimp only at h ⊢
  generalize (if p ∈ w.keystore.map Prod.fst then FapiRc.pathAlreadyExists
    else env.fapi w.log (.fapiCreateSeal p q d)) = rc at h ⊢
  by_cases hs : rc = .success
  · rw [if_pos hs]; exact ⟨rfl, rfl⟩
  · rw [if_neg hs] at h; exact absurd h hs

theorem ensure_pcr_policy_log (env : Env) (w : World) :
    ∃ pre, (TpmManager.ensure_pcr_policy env w).2.log = w.log ++ pre ∧
      ∀ ev ∈ pre, ev.act = .fapiImport TpmManager.POLICY_PATH := by
  unfold TpmManager.ensure_pcr_policy
  split
  · exact ⟨[], by simp, by simp⟩
  · obtain ⟨ok, hl, _⟩ := fapi_import_log env TpmManager.POLICY_PATH w
    rcases hI : Fapi_Import env TpmManager.POLICY_PATH w with ⟨rc, w1⟩
    rw [hI] at hl
    dsimp only at hl ⊢
    refine ⟨[⟨.fapiImport TpmManager.POLICY_PATH, ok⟩], ?_, by simp⟩
    repeat' split
    all_goals exact hl

theorem seal_ok (env : Env) (name : String) (data : List Byte) (w w' : World)
    (h : TpmManager.seal env name data w = (.ok (), w')) :
    os_tables w' = os_tables w ∧
    w'.keystore.find? (fun o => o.1 == TpmManager.get_seal_path name)
      = some (TpmManager.get_seal_path name, data) ∧
    ∃ pre, w'.log = w.log ++ pre ++
        [⟨.fapiCreateSeal (TpmManager.get_seal_path name) TpmManager.POLICY_PATH data, true⟩] ∧
      ∀ ev ∈ pre, ev.act = .fapiImport TpmManager.POLICY_PATH ∨
        ev.act = .fapiDelete (TpmManager.get_seal_path name) := by
  have hos := seal_os_tables env name data w
  rw [h] at hos
  refine ⟨hos, ?_⟩
  unfold TpmManager.seal at h
  split at h
  · simp at h
  · obtain ⟨pre1, hl1, hp1⟩ := ensure_pcr_policy_log env w
    rcases hP : TpmManager.ensure_pcr_policy env w with ⟨r1, w1⟩
    rw [hP] at hl1 h
    dsimp only at hl1 h
    cases r1 with
    | error e => simp at h
    | ok u =>
      dsimp only at h
      obtain ⟨ok2, hl2⟩ := fapi_delete_log env (TpmManager.get_seal_path name) w1
      rcases hD : Fapi_Delete env (TpmManager.get_seal_path name) w1 with ⟨rc2, w2⟩
      rw [hD] at hl2 h
      dsimp only at hl2 h
      have h3 := fapi_create_seal_ok env (TpmManager.get_seal_path name)
        TpmManager.POLICY_PATH data w2
      rcases hC : Fapi_CreateSeal env (TpmManager.get_seal_path name)
        TpmManager.POLICY_PATH data w2 with ⟨rc3, w3⟩
      rw [hC] at h3 h
      dsimp only at h3 h
      split at h
      · simp at h
      · rename_i hrc
        simp only [Prod.mk.injEq, true_and] at h
        subst h
        have hs : rc3 = .success := by simpa using hrc
        obtain ⟨hl3, hk3⟩ := h3 hs
        refine ⟨by rw [hk3]; simp, pre1 ++ [⟨.fapiDelete (TpmManager.get_seal_path name), ok2⟩],
          by rw [hl3, hl2, hl1]; simp, ?_⟩
        intro ev hev
        rcases List.mem_append.mp hev with h' | h'
        · exact Or.inl (hp1 ev h')
        · simp only [List.mem_singleton] at h'
          subst h'; exact Or.inr rfl

theorem ok_of_ite {c : Prop} [Decidable c] {e : VaultError} {W1 W2 w' : World}
    (h : (if c then ((Except.ok (), W1) : Result Unit) else (Except.error e, W2))
      = (Except.ok (), w')) : c ∧ w' = W1 := by
  split at h
  · rename_i hc
    simp only [Prod.mk.injEq, true_and] at h
    exact ⟨hc, h.symm⟩
  · simp at h

theorem create_image_file_ok (env : Env) (p : String) (size : Nat) (w w1 : World)
    (h : TpmVault.create_image_file env p size w = (.ok (), w1)) :
    ∃ img_events,
      (img_events = [⟨.fallocate p size, true⟩] ∧ (p, size) ∈ w1.files ∨
        img_events = [⟨.fallocate p size, false⟩, ⟨.dd p (size / (1024 * 1024)), true⟩] ∧
          (p, size / (1024 * 1024) * 1048576) ∈ w1.files) ∧
      w1.log = w.log ++ img_events ∧ file_exists w1 p = true ∧
      w1.cwd = w.cwd ∧ w1.loops = w.loops ∧ w1.mappers = w.mappers ∧ w1.mounts = w.mounts ∧
      w1.dirs = w.dirs := by
  rw [create_image_file_eq] at h
  split at h
  · rename_i hs
    simp only [Prod.mk.injEq, true_and] at h
    subst h
    rw [attempt_ok _ _ _ hs]
    exact ⟨_, Or.inl ⟨rfl, by simp [record, effect]⟩, by simp [record, effect],
      by simp [file_exists, record, effect], rfl, rfl, rfl, rfl, rfl⟩
  · rename_i hs
    split at h
    · simp at h
    · obtain ⟨hs2, hw⟩ := ok_of_ite h
      subst hw
      rw [attempt_ok _ _ _ hs2, attempt_failed _ _ _ (by simpa using hs)]
      exact ⟨_, Or.inr ⟨rfl, by simp [record, effect]⟩, by simp [record, effect],
        by simp [file_exists, record, effect], rfl, rfl, rfl, rfl, rfl⟩

theorem get_seal_path_injective (a b : String)
    (h : TpmManager.get_seal_path a = TpmManager.get_seal_path b) : a = b := by
  unfold TpmManager.get_seal_path at h
  have h2 := congrArg String.data h
  simp only [String.data_append, List.append_cancel_left_eq] at h2
  exact String.ext h2

theorem fapi_delete_spec (env : Env) (p : String) (w : World) :
    os_tables (Fapi_Delete env p w).2 = os_tables w ∧
    (Fapi_Delete env p w).2.policies = w.policies ∧
    (Fapi_Delete env p w).2.released = w.released ∧
    (Fapi_Delete env p w).2.policy_imported = w.policy_imported ∧
    ((Fapi_Delete env p w).1 = .success →
      (Fapi_Delete env p w).2.keystore = w.keystore.filter (fun o => o.1 != p)) ∧
    ((Fapi_Delete env p w).1 ≠ .success → (Fapi_Delete env p w).2.keystore = w.keystore) := by
  unfold Fapi_Delete
  dsimp only
  generalize (if p ∈ w.keystore.map Prod.fst then env.fapi w.log (.fapiDelete p)
    else notFoundRc (env.fapi w.log (.fapiDelete p))) = rc
  by_cases h : rc = .success
  · rw [if_pos h]
    exact ⟨rfl, rfl, rfl, rfl, fun _ => rfl, fun hn => absurd h hn⟩
  · rw [if_neg h]
    exact ⟨rfl, rfl, rfl, rfl, fun hs => absurd hs h, fun _ => rfl⟩

theorem find_filter_ne (ks : List (String × List Byte)) (p q : String) (h : q ≠ p) :
    (ks.filter (fun o => o.1 != p)).find? (fun o => o.1 == q) = ks.find? (fun o => o.1 == q) := by
  induction ks with
  | nil => rfl
  | cons x xs ih =>
    by_cases hx : x.1 = p
    · have hq : (x.1 == q) = false := by
        simp only [beq_eq_false_iff_ne, ne_eq]
        exact fun hq => h (hq.symm.trans hx)
      have hf : (x.1 != p) = false := by simp [hx]
      rw [List.filter_cons, List.find?_cons]
      simp only [hf, hq, Bool.false_eq_true, if_false]
      exact ih
    · have hf : (x.1 != p) = true := by simp [hx]
      rw [List.filter_cons, List.find?_cons]
      simp only [hf, if_true]
      rw [List.find?_cons, ih]

theorem remove_spec (env : Env) (name : String) (w : World) :
    (TpmManager.remove env name w).2 = (Fapi_Delete env (TpmManager.get_seal_path name) w).2 ∧
    ((TpmManager.remove env name w).1 = .ok () ↔
      (Fapi_Delete env (TpmManager.get_seal_path name) w).1 = .success) := by
  unfold TpmManager.remove
  dsimp only
  rcases hD : Fapi_Delete env (TpmManager.get_seal_path name) w with ⟨rc, w1⟩
  dsimp only
  cases rc <;> simp

theorem unseal_absent (env : Env) (name : String) (w : World)
    (h : w.keystore.find? (fun o => o.1 == TpmManager.get_seal_path name) = none) :
    TpmManager.unseal env name w
      = (.error (.noSealedObject name), record (.fapiUnseal (TpmManager.get_seal_path name)) false w) := by
  unfold TpmManager.unseal Fapi_Unseal
  simp only [h]
  unfold notFoundRc
  split <;> simp

theorem unseal_by_code (env : Env) (name : String) (w : World) :
    (((Fapi_Unseal env (TpmManager.get_seal_path name) w).1 = .keyNotFound ∨
        (Fapi_Unseal env (TpmManager.get_seal_path name) w).1 = .pathNotFound) →
      (TpmManager.unseal env name w).1 = .error (.noSealedObject name)) ∧
    (((Fapi_Unseal env (TpmManager.get_seal_path name) w).1 = .authorizationFailed ∨
        (Fapi_Unseal env (TpmManager.get_seal_path name) w).1 = .policyUnknown) →
      (TpmManager.unseal env name w).1 = .error .pcrChanged) := by
  unfold TpmManager.unseal
  dsimp only
  rcases hU : Fapi_Unseal env (TpmManager.get_seal_path name) w with ⟨rc, data, w1⟩
  dsimp only
  constructor
  · rintro (h | h) <;> subst h <;> simp
  · rintro (h | h) <;> subst h <;> simp

theorem open_unseal_error (env : Env) (name : String) (w : World) (e : VaultError)
    (hex : file_exists w (TpmVault.get_image_path w name) = true)
    (hno : LuksManager.is_open w (LuksManager.get_mapper_name name) = false)
    (hu : (TpmManager.unseal env name w).1 = .error e) :
    (TpmVault.open_ env name w).1 = .error e ∧
    os_tables (TpmVault.open_ env name w).2 = os_tables w := by
  have hos := unseal_os env name w
  unfold TpmVault.open_
  simp only [hex, hno, Bool.not_true, Bool.false_eq_true, if_false]
  rcases hU : TpmManager.unseal env name w with ⟨r, w1⟩
  rw [hU] at hu hos
  dsimp only at hu hos ⊢
  subst hu
  exact ⟨rfl, hos⟩

theorem fapi_unseal_present (env : Env) (p : String) (w : World) (o : String × List Byte)
    (h : w.keystore.find? (fun o => o.1 == p) = some o) :
    (Fapi_Unseal env p w).1 = env.fapi w.log (.fapiUnseal p) ∧
    (env.fapi w.log (.fapiUnseal p) = .success → (Fapi_Unseal env p w).2.1 = o.2) := by
  unfold Fapi_Unseal
  simp only [h]
  split
  · rename_i hs; exact ⟨hs.symm ▸ rfl, fun _ => rfl⟩
  · rename_i hs; exact ⟨rfl, fun h' => absurd h' hs⟩

theorem unseal_present_ok (env : Env) (name : String) (w : World) (data : List Byte)
    (h : w.keystore.find? (fun o => o.1 == TpmManager.get_seal_path name)
      = some (TpmManager.get_seal_path name, data))
    (hs : env.fapi w.log (.fapiUnseal (TpmManager.get_seal_path name)) = .success) :
    (TpmManager.unseal env name w).1 = .ok data := by
  obtain ⟨h1, h2⟩ := fapi_unseal_present env _ w _ h
  unfold TpmManager.unseal
  dsimp only
  rcases hU : Fapi_Unseal env (TpmManager.get_seal_path name) w with ⟨rc, d, w1⟩
  rw [hU] at h1 h2
  dsimp only at h1 h2 ⊢
  rw [h1, hs]
  simp [h2 hs]

theorem ensure_pcr_policy_error (env : Env) (w : World) :
    ∀ e, (TpmManager.ensure_pcr_policy env w).1 = .error e → ∃ rc, e = .policyImportFailed rc := by
  intro e h
  unfold TpmManager.ensure_pcr_policy at h
  split at h
  · simp at h
  · dsimp only at h
    split at h
    · simp at h
    · split at h
      · simp only [Except.error.injEq] at h
        exact ⟨_, h.symm⟩
      · simp at h

theorem create_try_preserves (env : Env) (name : String) (size : Nat) (key : List Byte)
    (w : World) (P : World → Prop) (hatt : ∀ a W, P W → P (attempt env a W))
    (hseal : ∀ W, P W → P (TpmManager.seal env name key W).2) (h0 : P w) :
    P (TpmVault.create_try env name size key w).2.2 := by
  unfold TpmVault.create_try
  dsimp only
  generalize TpmVault.get_image_path w name = image
  generalize LuksManager.get_mapper_name name = m
  have W1 := create_image_file_world env image size w
  rcases h1 : TpmVault.create_image_file env image size w with ⟨r1, w1⟩
  rw [h1] at W1
  dsimp only at W1
  have p1 : P w1 := by
    rcases W1 with h | h <;> rw [h]
    · exact hatt _ _ h0
    · exact hatt _ _ (hatt _ _ h0)
  cases r1 with
  | error e => exact p1
  | ok u =>
  dsimp only
  have W2 := attach_world env image w1
  rcases h2 : LoopManager.attach env image w1 with ⟨r2, w2⟩
  rw [h2] at W2
  dsimp only at W2
  have p2 : P w2 := by
    rw [W2]; split
    · exact p1
    · exact hatt _ _ p1
  cases r2 with
  | error e => exact p2
  | ok dev =>
  dsimp only
  have W3 := format_world env dev key w2
  rcases h3 : LuksManager.format env dev key w2 with ⟨r3, w3⟩
  rw [h3] at W3
  dsimp only at W3
  have p3 : P w3 := by rw [W3]; exact hatt _ _ p2
  cases r3 with
  | error e => exact p3
  | ok u =>
  dsimp only
  have W4 := luks_open_world env dev m key w3
  rcases h4 : LuksManager.open_ env dev m key w3 with ⟨r4, w4⟩
  rw [h4] at W4
  dsimp only at W4
  have p4 : P w4 := by
    rw [W4]; split
    · exact p3
    · exact hatt _ _ p3
  cases r4 with
  | error e => exact p4
  | ok u =>
  dsimp only
  have W5 := mkfs_world env (LuksManager.get_mapper_path m) w4
  rcases h5 : TpmVault.create_filesystem env (LuksManager.get_mapper_path m) w4 with ⟨r5, w5⟩
  rw [h5] at W5
  dsimp only at W5
  have p5 : P w5 := by rw [W5]; exact hatt _ _ p4
  cases r5 with
  | error e => exact p5
  | ok u =>
  dsimp only
  have W6 := luks_close_world env m w5
  rcases h6 : LuksManager.close env m w5 with ⟨r6, w6⟩
  rw [h6] at W6
  dsimp only at W6
  have p6 : P w6 := by
    rw [W6]; split
    · exact hatt _ _ p5
    · exact p5
  cases r6 with
  | error e => exact p6
  | ok u =>
  dsimp only
  have W7 := detach_world env dev w6
  rcases h7 : LoopManager.detach env dev w6 with ⟨r7, w7⟩
  rw [h7] at W7
  dsimp only at W7
  have p7 : P w7 := by rw [W7]; exact hatt _ _ p6
  cases r7 with
  | error e => exact p7
  | ok u =>
  dsimp only
  have p8 := hseal w7 p7
  rcases h8 : TpmManager.seal env name key w7 with ⟨r8, w8⟩
  rw [h8] at p8
  cases r8 with
  | error e => exact p8
  | ok u => exact p8

theorem open_try_preserves (env : Env) (name : String) (key : List Byte)
    (w : World) (P : World → Prop) (hatt : ∀ a W, P W → P (attempt env a W)) (h0 : P w) :
    P (TpmVault.open_try env name key w).2.2 := by
  unfold TpmVault.open_try
  dsimp only
  generalize TpmVault.get_image_path w name = image
  generalize TpmVault.get_mount_path w name = mp
  generalize LuksManager.get_mapper_name name = m
  have W1 := attach_world env image w
  rcases h1 : LoopManager.attach env image w with ⟨r1, w1⟩
  rw [h1] at W1
  dsimp only at W1
  have p1 : P w1 := by
    rw [W1]; split
    · exact h0
    · exact hatt _ _ h0
  cases r1 with
  | error e => exact p1
  | ok dev =>
  dsimp only
  have W2 := luks_open_world env dev m key w1
  rcases h2 : LuksManager.open_ env dev m key w1 with ⟨r2, w2⟩
  rw [h2] at W2
  dsimp only at W2
  have p2 : P w2 := by
    rw [W2]; split
    · exact p1
    · exact hatt _ _ p1
  cases r2 with
  | error e => exact p2
  | ok u =>
  dsimp only
  have p3 : P (TpmVault.mount_filesystem env (LuksManager.get_mapper_path m) mp w2).2 := by
    rw [mount_filesystem_eq]
    unfold mount_step
    repeat' split
    · exact hatt _ _ p2
    · exact hatt _ _ p2
    · exact hatt _ _ (hatt _ _ p2)
    · exact hatt _ _ (hatt _ _ p2)
    · exact hatt _ _ p2
  rcases h3 : TpmVault.mount_filesystem env (LuksManager.get_mapper_path m) mp w2 with ⟨r3, w3⟩
  rw [h3] at p3
  cases r3 with
  | error e => exact p3
  | ok u => exact p3

theorem create_catch_preserves (env : Env) (name ld : String) (w : World) (P : World → Prop)
    (hatt : ∀ a W, P W → P (attempt env a W)) (h0 : P w) :
    P (TpmVault.create_catch env name ld w) := by
  rw [create_catch_eq]
  dsimp only
  repeat' split
  all_goals first
    | exact h0
    | exact hatt _ _ h0
    | exact hatt _ _ (hatt _ _ h0)
    | exact hatt _ _ (hatt _ _ (hatt _ _ h0))

theorem open_catch_preserves (env : Env) (name ld : String) (w : World) (P : World → Prop)
    (hatt : ∀ a W, P W → P (attempt env a W)) (h0 : P w) :
    P (TpmVault.open_catch env name ld w) := by
  rw [open_catch_eq]
  dsimp only
  repeat' split
  all_goals first
    | exact h0
    | exact hatt _ _ h0
    | exact hatt _ _ (hatt _ _ h0)

theorem seal_released (env : Env) (name : String) (data : List Byte) (w : World) :
    (TpmManager.seal env name data w).2.released = w.released := by
  unfold TpmManager.seal
  split
  · rfl
  · have e1 : (TpmManager.ensure_pcr_policy env w).2.released = w.released := by
      unfold TpmManager.ensure_pcr_policy
      split
      · rfl
      · unfold Fapi_Import
        dsimp only
        repeat' split
        all_goals rfl
    rcases hP : TpmManager.ensure_pcr_policy env w with ⟨r1, w1⟩
    rw [hP] at e1
    dsimp only at e1 ⊢
    cases r1 with
    | error e => exact e1
    | ok u =>
      dsimp only
      have e2 := (fapi_delete_spec env (TpmManager.get_seal_path name) w1).2.2.1
      rcases hD : Fapi_Delete env (TpmManager.get_seal_path name) w1 with ⟨rc2, w2⟩
      rw [hD] at e2
      dsimp only at e2 ⊢
      have e3 : (Fapi_CreateSeal env (TpmManager.get_seal_path name) TpmManager.POLICY_PATH
          data w2).2.released = w2.released := by
        unfold Fapi_CreateSeal
        dsimp only
        repeat' split
        all_goals rfl
      rcases hC : Fapi_CreateSeal env (TpmManager.get_seal_path name) TpmManager.POLICY_PATH
        data w2 with ⟨rc3, w3⟩
      rw [hC] at e3
      dsimp only at e3 ⊢
      split <;> exact e3.trans (e2.trans e1)

theorem secure_erase_spec (buf : List Byte) (n : Nat) :
    secure_erase buf n = List.replicate (min n buf.length) 0 ++ buf.drop n := by
  induction buf generalizing n with
  | nil => simp [secure_erase]
  | cons x xs ih =>
    cases n with
    | zero => simp [secure_erase]
    | succ k =>
      simp only [secure_erase, ih, List.length_cons, List.drop_succ_cons]
      rw [Nat.succ_min_succ, List.replicate_succ]
      rfl

theorem unseal_released (env : Env) (name : String) (w : World) :
    (∃ e, (TpmManager.unseal env name w).1 = .error e ∧
      (TpmManager.unseal env name w).2.released = w.released) ∨
    (∃ data, (TpmManager.unseal env name w).1 = .ok data ∧
      (TpmManager.unseal env name w).2.released = w.released ++ [(.fapi_data, data)]) := by
  unfold TpmManager.unseal
  dsimp only
  have hr : (Fapi_Unseal env (TpmManager.get_seal_path name) w).2.2.released = w.released := by
    unfold Fapi_Unseal
    split
    · rfl
    · dsimp only; split <;> rfl
  rcases hU : Fapi_Unseal env (TpmManager.get_seal_path name) w with ⟨rc, data, w1⟩
  rw [hU] at hr
  dsimp only at hr ⊢
  split
  · left
    repeat' split
    all_goals exact ⟨_, rfl, hr⟩
  · right
    exact ⟨data, rfl, by simp [release, hr]⟩

theorem takeWhile_all {α : Type} (p : α → Bool) (l : List α) (h : ∀ x ∈ l, p x = true) :
    l.takeWhile p = l := by
  induction l with
  | nil => rfl
  | cons x xs ih =>
    rw [List.takeWhile_cons, h x (List.mem_cons_self _ _)]
    simp only [if_true]
    rw [ih (fun y hy => h y (List.mem_cons_of_mem _ hy))]

theorem stoull_digits (ds : List Char) (hne : ds ≠ []) (hd : ∀ c ∈ ds, isdigit c = true)
    (hv : decimal_value ds < 2 ^ 64) : stoull (String.mk ds) = .ok (decimal_value ds) := by
  obtain ⟨c, cs, rfl⟩ := List.exists_cons_of_ne_nil hne
  have hc := hd c (List.mem_cons_self _ _)
  have hc' : 48 ≤ c.toNat ∧ c.toNat ≤ 57 := by simpa [isdigit] using hc
  have hsp : isspace c = false := by
    simp only [isspace, Bool.or_eq_false_iff, beq_eq_false_iff_ne, ne_eq, Bool.and_eq_false_iff,
      decide_eq_false_iff_not]
    constructor
    · omega
    · right; omega
  have hminus : c ≠ '-' := by
    rintro rfl
    exact absurd hc (by decide)
  have hplus : c ≠ '+' := by
    rintro rfl
    exact absurd hc (by decide)
  unfold stoull
  simp only [String.toList, List.dropWhile_cons, hsp, Bool.false_eq_true, if_false, List.head?_cons]
  have h1 : (some c == some '-') = false := by simpa using hminus
  have h2 : (some c == some '+') = false := by simpa using hplus
  simp only [h1, h2, Bool.or_self, Bool.false_eq_true, if_false]
  rw [takeWhile_all isdigit (c :: cs) hd]
  simp only [List.isEmpty_cons, Bool.false_eq_true, if_false]
  have hv' : ¬ (List.foldl (fun acc c => 10 * acc + (c.toNat - 48)) 0 (c :: cs) ≥ 2 ^ 64) := by
    unfold decimal_value at hv; omega
  rw [if_neg hv']
  rfl

theorem parse_size_plain (ds : List Char) (hne : ds ≠ []) (hd : ∀ c ∈ ds, isdigit c = true)
    (hv : decimal_value ds < 2 ^ 64) : parse_size (String.mk ds) = .ok (decimal_value ds) := by
  unfold parse_size
  obtain ⟨c, hc⟩ : ∃ c, ds.getLast? = some c := by
    cases h : ds.getLast? with
    | none => exact absurd (List.getLast?_eq_none_iff.mp h) hne
    | some c => exact ⟨c, rfl⟩
  have hmem : c ∈ ds := List.mem_of_getLast?_eq_some hc
  have hdig := hd c hmem
  have hM : (c == 'M' || c == 'm') = false := by
    simp only [Bool.or_eq_false_iff, beq_eq_false_iff_ne, ne_eq]
    constructor <;> (rintro rfl; exact absurd hdig (by decide))
  have hG : (c == 'G' || c == 'g') = false := by
    simp only [Bool.or_eq_false_iff, beq_eq_false_iff_ne, ne_eq]
    constructor <;> (rintro rfl; exact absurd hdig (by decide))
  have hK : (c == 'K' || c == 'k') = false := by
    simp only [Bool.or_eq_false_iff, beq_eq_false_iff_ne, ne_eq]
    constructor <;> (rintro rfl; exact absurd hdig (by decide))
  simp only [String.toList, hc, hM, hG, hK, Bool.false_eq_true, if_false]
  rw [stoull_digits ds hne hd hv]
  simp only [Nat.mul_one]
  rw [Nat.mod_eq_of_lt hv]

theorem parse_size_suffixed (ds : List Char) (suf : Char) (mult : Nat)
    (hne : ds ≠ []) (hd : ∀ c ∈ ds, isdigit c = true)
    (hsuf : (suf = 'K' ∨ suf = 'k') ∧ mult = 1024 ∨
      (suf = 'M' ∨ suf = 'm') ∧ mult = 1024 * 1024 ∨
      (suf = 'G' ∨ suf = 'g') ∧ mult = 1024 * 1024 * 1024)
    (hv : mult * decimal_value ds < 2 ^ 64) :
    parse_size (String.mk (ds ++ [suf])) = .ok (mult * decimal_value ds) := by
  have hv1 : decimal_value ds < 2 ^ 64 := by
    rcases hsuf with ⟨_, h⟩ | ⟨_, h⟩ | ⟨_, h⟩ <;> subst h <;> omega
  unfold parse_size
  have hl : (ds ++ [suf]).getLast? = some suf := by simp
  simp only [String.toList, hl, List.dropLast_concat]
  rcases hsuf with ⟨h | h, hm⟩ | ⟨h | h, hm⟩ | ⟨h | h, hm⟩ <;> subst h <;> subst hm <;>
    simp only [show ∀ a b : Char, (a == b) = decide (a = b) from fun _ _ => rfl,
      Char.reduceEq, decide_True, decide_False, Bool.or_true, Bool.true_or, Bool.or_self,
      Bool.false_eq_true, if_true, if_false] <;>
    rw [stoull_digits ds hne hd hv1] <;>
    simp only [] <;>
    rw [Nat.mul_comm, Nat.mod_eq_of_lt hv]

theorem mount_filesystem_loops (env : Env) (d p : String) (w : World) :
    (TpmVault.mount_filesystem env d p w).2.loops = w.loops := by
  rw [mount_filesystem_eq]
  unfold mount_step
  repeat' split
  all_goals simp

theorem open_try_existing (env : Env) (name : String) (key : List Byte) (w : World)
    (dev : String)
    (hfind : LoopManager.find_loop_for_file w (TpmVault.get_image_path w name) = dev)
    (hdev : dev ≠ "") :
    (TpmVault.open_try env name key w).2.1 = dev ∧
    (TpmVault.open_try env name key w).2.2.loops = w.loops := by
  unfold TpmVault.open_try
  dsimp only
  rw [attach_eq]
  rw [hfind]
  have hb : (dev != "") = true := by simpa using hdev
  simp only [hb, if_true]
  generalize TpmVault.get_mount_path w name = mp
  generalize LuksManager.get_mapper_name name = m
  have W2 := luks_open_world env dev m key w
  rcases h2 : LuksManager.open_ env dev m key w with ⟨r2, w2⟩
  rw [h2] at W2
  dsimp only at W2
  have l2 : w2.loops = w.loops := by
    rw [W2]; split
    · rfl
    · simp
  cases r2 with
  | error e => exact ⟨rfl, l2⟩
  | ok u =>
  dsimp only
  have l3 := mount_filesystem_loops env (LuksManager.get_mapper_path m) mp w2
  rcases h3 : TpmVault.mount_filesystem env (LuksManager.get_mapper_path m) mp w2 with ⟨r3, w3⟩
  rw [h3] at l3
  cases r3 with
  | error e => exact ⟨rfl, l3.trans l2⟩
  | ok u => exact ⟨rfl, l3.trans l2⟩

theorem open_catch_detach (env : Env) (name dev : String) (w1 : World) (hdev : dev ≠ "") :
    ∃ ok, (TpmVault.open_catch env name dev w1).log.getLast? = some ⟨.losetupDetach dev, ok⟩ ∧
      (TpmVault.open_catch env name dev w1).loops
        = if ok then w1.loops.filter (fun b => b.1 != dev) else w1.loops := by
  rw [open_catch_eq]
  dsimp only
  have hb : (dev != "") = true := by simpa using hdev
  simp only [hb, if_true]
  generalize hwa : (if LuksManager.is_open w1 (LuksManager.get_mapper_name name) = true then
      attempt env (.cryptClose (LuksManager.get_mapper_name name)) w1 else w1) = wa
  have la : wa.loops = w1.loops := by
    rw [← hwa]; split
    · simp
    · rfl
  refine ⟨succeeds env wa.log (.losetupDetach dev), ?_, ?_⟩
  · rw [attempt_log]; simp [attempt_event]
  · by_cases hs : succeeds env wa.log (.losetupDetach dev) = true
    · rw [loops_after_detach env dev wa hs, la]; simp [hs]
    · have hs' : succeeds env wa.log (.losetupDetach dev) = false := by simpa using hs
      rw [attempt_failed env _ wa hs']; simp [hs', record, la]

theorem vault_new_unprivileged (env : Env) (w : World) (hroot : is_root w = false)
    (hinit : env.fapi w.log .fapiInitialize = .success) :
    TpmVault.new env w
      = (.error .notRoot, record .fapiInitialize true { w with policy_imported := false }) := by
  unfold TpmVault.new TpmManager.new
  have hr : is_root (record .fapiInitialize true { w with policy_imported := false }) = false := by
    simpa [is_root, record] using hroot
  simp [hinit, hr]

theorem run_vault_unprivileged (env : Env) (op : World → Result Unit) (w : World)
    (hroot : is_root w = false) (hinit : env.fapi w.log .fapiInitialize = .success) :
    run_vault env op w
      = ⟨.returned 1, some (.error .notRoot),
          record .fapiInitialize true { w with policy_imported := false }⟩ := by
  unfold run_vault
  rw [vault_new_unprivileged env w hroot hinit]

theorem main_unprivileged (env : Env) (argv : List String) (confirmation : String) (w : World)
    (hroot : is_root w = false) (hargs : complete_invocation argv confirmation = true)
    (hinit : env.fapi w.log .fapiInitialize = .success) :
    main env argv confirmation w
      = ⟨.returned 1, some (.error .notRoot),
          record .fapiInitialize true { w with policy_imported := false }⟩ := by
  have hrun := fun op => run_vault_unprivileged env op w hroot hinit
  unfold complete_invocation at hargs
  simp only [Bool.or_eq_true, Bool.and_eq_true, decide_eq_true_eq, beq_iff_eq, Nat.not_lt] at hargs
  unfold main
  dsimp only
  generalize argv.getD 1 "" = command at hargs ⊢
  rcases hargs with ((⟨⟨hc, hl⟩, hsz⟩ | ⟨hc, hl⟩) | ⟨hc, hl⟩) | ⟨⟨hc, hl⟩, hy⟩
  · have h2 : ¬ argv.length < 2 := by omega
    have h3 : ¬ argv.length < 3 := by omega
    subst hc
    simp only [h2, if_false, beq_self_eq_true, if_true, cmd_create, h3]
    rcases hsz with hsz | hsz
    · have h4 : ¬ argv.length ≥ 4 := by omega
      simp only [h4, if_false, hrun]
    · by_cases h4 : argv.length ≥ 4
      · simp only [h4, if_true]
        cases hp : parse_size (argv.getD 3 "") with
        | error e => rw [hp] at hsz; cases hsz
        | ok size => simp only [hrun]
      · simp only [h4, if_false, hrun]
  · have h2 : ¬ argv.length < 2 := by omega
    have h3 : ¬ argv.length < 3 := by omega
    rcases hc with hc | hc
    · subst hc; simp [h2, cmd_open, h3, hrun]
    · subst hc; simp [h2, cmd_close, h3, hrun]
  · have h2 : ¬ argv.length < 2 := by omega
    subst hc; simp [h2, cmd_list, vault_new_unprivileged env w hroot hinit]
  · have h2 : ¬ argv.length < 2 := by omega
    have h3 : ¬ argv.length < 3 := by omega
    subst hc; simp [h2, cmd_wipe, h3, hy, hrun]

theorem image_ne_mapper (cwd name : String) :
    cwd ++ "/" ++ name ++ ".img" ≠ "/dev/mapper/" ++ ("tpm-vault-" ++ name) := by
  intro h
  have hd := congrArg String.data h
  simp only [String.data_append] at hd
  have hl := congrArg List.length hd
  simp only [List.length_append, List.length_cons, List.length_nil] at hl
  have h17 : cwd.data.length = 17 := by omega
  have hg := congrArg (fun l => l[17]?) hd
  simp only [List.append_assoc] at hg
  rw [List.getElem?_append_right (by omega)] at hg
  simp only [h17, Nat.sub_self] at hg
  simp at hg

theorem keeps_attempt (env : Env) (mp : String) (ms : List (String × String)) (a : Action)
    (W : World) (ha : a.keeps_mappings mp = true) (h : keeps mp ms W) :
    keeps mp ms (attempt env a W) := by
  obtain ⟨hf, hmem⟩ := h
  unfold attempt
  split
  · cases a <;>
      simp_all [keeps, record, effect, file_exists, Action.keeps_mappings] <;>
      (intro hx; exact ha hx.symm)
  · exact ⟨by simpa [record, file_exists] using hf, by simpa [record] using hmem⟩

theorem keeps_os (mp : String) (ms : List (String × String)) (W W' : World)
    (ho : os_tables W' = os_tables W) (h : keeps mp ms W) : keeps mp ms W' := by
  simp only [os_tables, Prod.mk.injEq] at ho
  obtain ⟨_, _, hfiles, _, _, hmappers, _⟩ := ho
  exact ⟨by rw [file_exists_congr W W' mp hfiles]; exact h.1, by rw [hmappers]; exact h.2⟩

theorem create_try_keeps (env : Env) (name : String) (size : Nat) (key : List Byte)
    (w : World) (ms : List (String × String))
    (h0 : keeps (LuksManager.get_mapper_path (LuksManager.get_mapper_name name)) ms w) :
    keeps (LuksManager.get_mapper_path (LuksManager.get_mapper_name name)) ms
      (TpmVault.create_try env name size key w).2.2 := by
  have hne : TpmVault.get_image_path w name
      ≠ LuksManager.get_mapper_path (LuksManager.get_mapper_name name) :=
    image_ne_mapper w.cwd name
  unfold TpmVault.create_try
  dsimp only
  generalize TpmVault.get_image_path w name = image at hne ⊢
  have hm : ∀ W, keeps (LuksManager.get_mapper_path (LuksManager.get_mapper_name name)) ms W →
      LuksManager.is_open W (LuksManager.get_mapper_name name) = false := fun W h => h.1
  generalize LuksManager.get_mapper_name name = m at *
  generalize hmp : LuksManager.get_mapper_path m = mp at *
  have hatt : ∀ a W, a.keeps_mappings mp = true → keeps mp ms W → keeps mp ms (attempt env a W) :=
    fun a W ha h => keeps_attempt env mp ms a W ha h
  have hfa : ∀ n, (Action.fallocate image n).keeps_mappings mp = true := by
    intro n; simpa [Action.keeps_mappings] using hne
  have hdd : ∀ n, (Action.dd image n).keeps_mappings mp = true := by
    intro n; simpa [Action.keeps_mappings] using hne
  have W1 := create_image_file_world env image size w
  rcases h1 : TpmVault.create_image_file env image size w with ⟨r1, w1⟩
  rw [h1] at W1
  dsimp only at W1
  have p1 : keeps mp ms w1 := by
    rcases W1 with h | h <;> rw [h]
    · exact hatt _ _ (hfa _) h0
    · exact hatt _ _ (hdd _) (hatt _ _ (hfa _) h0)
  cases r1 with
  | error e => exact p1
  | ok u =>
  dsimp only
  have W2 := attach_world env image w1
  rcases h2 : LoopManager.attach env image w1 with ⟨r2, w2⟩
  rw [h2] at W2
  dsimp only at W2
  have p2 : keeps mp ms w2 := by
    rw [W2]; split
    · exact p1
    · exact hatt _ _ rfl p1
  cases r2 with
  | error e => exact p2
  | ok dev =>
  dsimp only
  have W3 := format_world env dev key w2
  rcases h3 : LuksManager.format env dev key w2 with ⟨r3, w3⟩
  rw [h3] at W3
  dsimp only at W3
  have p3 : keeps mp ms w3 := by rw [W3]; exact hatt _ _ rfl p2
  cases r3 with
  | error e => exact p3
  | ok u =>
  dsimp only
  have W4 := luks_open_world env dev m key w3
  rcases h4 : LuksManager.open_ env dev m key w3 with ⟨r4, w4⟩
  rw [h4] at W4
  dsimp only at W4
  have p4 : keeps mp ms w4 := by
    rw [W4]; split
    · exact p3
    · exact hatt _ _ rfl p3
  cases r4 with
  | error e => exact p4
  | ok u =>
  dsimp only
  have W5 := mkfs_world env mp w4
  rcases h5 : TpmVault.create_filesystem env mp w4 with ⟨r5, w5⟩
  rw [h5] at W5
  dsimp only at W5
  have p5 : keeps mp ms w5 := by rw [W5]; exact hatt _ _ rfl p4
  cases r5 with
  | error e => exact p5
  | ok u =>
  dsimp only
  have W6 := luks_close_world env m w5
  rcases h6 : LuksManager.close env m w5 with ⟨r6, w6⟩
  rw [h6] at W6
  dsimp only at W6
  have p6 : keeps mp ms w6 := by
    rw [W6, hm w5 p5]; exact p5
  cases r6 with
  | error e => exact p6
  | ok u =>
  dsimp only
  have W7 := detach_world env dev w6
  rcases h7 : LoopManager.detach env dev w6 with ⟨r7, w7⟩
  rw [h7] at W7
  dsimp only at W7
  have p7 : keeps mp ms w7 := by rw [W7]; exact hatt _ _ rfl p6
  cases r7 with
  | error e => exact p7
  | ok u =>
  dsimp only
  have p8 := keeps_os mp ms w7 _ (seal_os_tables env name key w7) p7
  rcases h8 : TpmManager.seal env name key w7 with ⟨r8, w8⟩
  rw [h8] at p8
  cases r8 with
  | error e => exact p8
  | ok u => exact p8

theorem create_catch_keeps (env : Env) (name ld : String) (w : World)
    (ms : List (String × String))
    (h0 : keeps (LuksManager.get_mapper_path (LuksManager.get_mapper_name name)) ms w) :
    keeps (LuksManager.get_mapper_path (LuksManager.get_mapper_name name)) ms
      (TpmVault.create_catch env name ld w) := by
  rw [create_catch_eq]
  dsimp only
  have ho : LuksManager.is_open w (LuksManager.get_mapper_name name) = false := h0.1
  simp only [ho, Bool.false_eq_true, if_false]
  repeat' split
  all_goals first
    | exact h0
    | exact keeps_attempt env _ ms _ _ rfl h0
    | exact keeps_attempt env _ ms _ _ rfl (keeps_attempt env _ ms _ _ rfl h0)

theorem close_detach_loops_subset (env : Env) (p : String) (w : World) :
    ∀ b ∈ (TpmVault.close_detach env p w).2.loops, b ∈ w.loops := by
  intro b hb
  unfold TpmVault.close_detach at hb
  dsimp only at hb
  split at hb
  · rw [detach_world] at hb
    by_cases hs : succeeds env w.log (.losetupDetach (LoopManager.find_loop_for_file w p)) = true
    · rw [loops_after_detach _ _ _ hs] at hb
      exact List.mem_of_mem_filter hb
    · have hs' : succeeds env w.log (.losetupDetach (LoopManager.find_loop_for_file w p))
          = false := by simpa using hs
      rw [attempt_failed _ _ _ hs'] at hb
      simpa [record] using hb
  · exact hb

theorem unmount_not_mounted (env : Env) (p : String) (w : World)
    (h : p ∉ w.mounts.map Prod.snd) :
    p ∉ (TpmVault.unmount_filesystem env p w).2.mounts.map Prod.snd := by
  have hm : TpmVault.is_mounted w p = false := by
    unfold TpmVault.is_mounted realpath
    split
    · rfl
    · rename_i abs hr
      split at hr
      · simp only [Option.some.injEq] at hr
        subst hr
        simpa using h
      · simp at hr
  rw [unmount_world]
  simp only [hm, Bool.false_eq_true, if_false]
  exact h

/-! ## The claims -/

/-- C4: when the image file of the vault already exists, `create` throws the
already-exists error and returns the world it was given: nothing is logged
(no key is generated, nothing is attached, formatted or opened) and the image
file, the loop bindings, the mappings and the keystore are unchanged. -/
theorem create_existing_image (env : Env) (name : String) (size : Nat) (w : World)
    (h : file_exists w (TpmVault.get_image_path w name) = true) :
    TpmVault.create env name size w = (.error (.imageExists name), w) := by
  simp [TpmVault.create, h]

theorem create_existing_image_witness :
    TpmVault.create env_ok "s" 1048576 world_created
      = (.error (.imageExists "s"), world_created) :=
  create_existing_image env_ok "s" 1048576 world_created (by decide)

/-- C1, the claim as stated fails: the image file does not exist,
`cryptsetup luksFormat` fails after the image was created and attached, the
rollback's `losetup -d` fails as well, and when `create` returns the loop
binding of the image is still there.  And when `mkfs` fails and every action
of the rollback succeeds, the mapping tpm-vault-s that `create` opened is
still open when it returns. -/
theorem create_leaves_loop_binding :
    file_exists world0 (TpmVault.get_image_path world0 "s") = false ∧
    (TpmVault.create env_format_detach_fail "s" 1048576 world0).1
      = .error (.formatFailed "/dev/loop0") ∧
    ("/dev/loop0", "/home/u/s.img")
      ∈ (TpmVault.create env_format_detach_fail "s" 1048576 world0).2.loops ∧
    (TpmVault.create env_mkfs_fail "s" 1048576 world0).1
      = .error (.mkfsFailed "/dev/mapper/tpm-vault-s") ∧
    (TpmVault.create env_mkfs_fail "s" 1048576 world0).2.log.drop 6
      = [⟨.losetupDetach "/dev/loop0", true⟩, ⟨.remove "/home/u/s.img", true⟩] ∧
    mapping_open (TpmVault.create env_mkfs_fail "s" 1048576 world0).2 "tpm-vault-s" = true := by
  decide

/-- C12: `wipe` leaves the current directory, the files, the directories, the
loop bindings, the container mappings, the mounts and the policy store as
they were, and for every other name the sealed secret found under it is the
same after the call as before; when `wipe` fails the whole keystore is
unchanged. -/
theorem wipe_frame (env : Env) (name : String) (w : World) :
    os_tables (TpmVault.wipe env name w).2 = os_tables w ∧
    (TpmVault.wipe env name w).2.policies = w.policies ∧
    (∀ other, other ≠ name →
      (TpmVault.wipe env name w).2.keystore.find? (fun o => o.1 == TpmManager.get_seal_path other)
        = w.keystore.find? (fun o => o.1 == TpmManager.get_seal_path other)) ∧
    ((TpmVault.wipe env name w).1 ≠ .ok () → (TpmVault.wipe env name w).2.keystore = w.keystore) := by
  unfold TpmVault.wipe
  obtain ⟨hw, hiff⟩ := remove_spec env name w
  obtain ⟨h1, h2, _, _, h5, h6⟩ := fapi_delete_spec env (TpmManager.get_seal_path name) w
  rw [hw]
  refine ⟨h1, h2, ?_, ?_⟩
  · intro other hne
    by_cases hs : (Fapi_Delete env (TpmManager.get_seal_path name) w).1 = .success
    · rw [h5 hs]
      exact find_filter_ne _ _ _ (fun hp => hne (get_seal_path_injective _ _ hp))
    · rw [h6 hs]
  · intro hfail
    exact h6 (fun hs => hfail (hiff.mpr hs))

theorem wipe_frame_witness :
    (TpmVault.wipe env_ok "s" world_two_secrets).2.keystore.find?
        (fun o => o.1 == TpmManager.get_seal_path "t")
      = world_two_secrets.keystore.find? (fun o => o.1 == TpmManager.get_seal_path "t") ∧
    (TpmVault.wipe env_ok "s" world_two_secrets).2.keystore = [("/HS/SRK/seal_t", [1, 2, 3])] :=
  ⟨(wipe_frame env_ok "s" world_two_secrets).2.2.1 "t" (by decide), by decide⟩

/-- C14: `unseal` maps the return code of the service to its error: a
key-not-found or path-not-found code gives the no-sealed-object error, an
authorization-failed or policy-unknown code gives the PCR-values-changed
error (two distinct errors).  `open`, with the image present and the mapping
closed, raises whatever error `unseal` raised; hence `open` on a name without
a sealed secret fails with the no-sealed-object error, and `open` on a name
whose secret the platform refuses to release fails with the
PCR-values-changed error. -/
theorem unseal_error_classes (env : Env) (name : String) (w : World) :
    (((Fapi_Unseal env (TpmManager.get_seal_path name) w).1 = .keyNotFound ∨
        (Fapi_Unseal env (TpmManager.get_seal_path name) w).1 = .pathNotFound) →
      (TpmManager.unseal env name w).1 = .error (.noSealedObject name)) ∧
    (((Fapi_Unseal env (TpmManager.get_seal_path name) w).1 = .authorizationFailed ∨
        (Fapi_Unseal env (TpmManager.get_seal_path name) w).1 = .policyUnknown) →
      (TpmManager.unseal env name w).1 = .error .pcrChanged) ∧
    VaultError.noSealedObject name ≠ VaultError.pcrChanged ∧
    (file_exists w (TpmVault.get_image_path w name) = true →
      LuksManager.is_open w (LuksManager.get_mapper_name name) = false →
      (∀ e, (TpmManager.unseal env name w).1 = .error e →
        (TpmVault.open_ env name w).1 = .error e) ∧
      (w.keystore.find? (fun o => o.1 == TpmManager.get_seal_path name) = none →
        (TpmVault.open_ env name w).1 = .error (.noSealedObject name)) ∧
      (∀ o, w.keystore.find? (fun o => o.1 == TpmManager.get_seal_path name) = some o →
        (env.fapi w.log (.fapiUnseal (TpmManager.get_seal_path name)) = .authorizationFailed ∨
          env.fapi w.log (.fapiUnseal (TpmManager.get_seal_path name)) = .policyUnknown) →
        (TpmVault.open_ env name w).1 = .error .pcrChanged)) := by
  obtain ⟨hnf, hpm⟩ := unseal_by_code env name w
  refine ⟨hnf, hpm, by simp, ?_⟩
  intro hex hno
  refine ⟨fun e he => (open_unseal_error env name w e hex hno he).1, ?_, ?_⟩
  · intro habs
    exact (open_unseal_error env name w _ hex hno (by rw [unseal_absent env name w habs])).1
  · intro o ho hrc
    have h1 := (fapi_unseal_present env _ w o ho).1
    exact (open_unseal_error env name w _ hex hno (hpm (by rw [h1]; exact hrc))).1

theorem unseal_error_classes_witness :
    (TpmVault.open_ env_ok "s" world_created).1 = .error (.noSealedObject "s") ∧
    (TpmVault.open_ env_pcr_drift "s" world_sealed).1 = .error .pcrChanged :=
  ⟨((unseal_error_classes env_ok "s" world_created).2.2.2 (by decide) (by decide)).2.1
      (by decide),
   ((unseal_error_classes env_pcr_drift "s" world_sealed).2.2.2 (by decide) (by decide)).2.2
      ("/HS/SRK/seal_s", List.replicate 64 7) (by decide) (Or.inl rfl)⟩

/-- C15: when `seal(name, bytes)` succeeds, whatever was sealed under the name
before, then `bytes` has at most 128 bytes and an `unseal(name)` that follows
immediately, with the platform releasing the secret, returns exactly
`bytes`. -/
theorem seal_unseal_round_trip (env : Env) (name : String) (bytes : List Byte) (w w1 : World)
    (hseal : TpmManager.seal env name bytes w = (.ok (), w1))
    (hsame : env.fapi w1.log (.fapiUnseal (TpmManager.get_seal_path name)) = .success) :
    (TpmManager.unseal env name w1).1 = .ok bytes ∧ bytes.length ≤ 128 := by
  obtain ⟨_, hks, _⟩ := seal_ok env name bytes w w1 hseal
  refine ⟨unseal_present_ok env name w1 bytes hks hsame, ?_⟩
  by_contra hlen
  unfold TpmManager.seal at hseal
  rw [if_pos (by omega)] at hseal
  simp at hseal

theorem seal_unseal_round_trip_witness :
    (TpmManager.unseal env_ok "s" (TpmManager.seal env_ok "s" [1, 2, 3] world_sealed).2).1
      = .ok [1, 2, 3] ∧ ([1, 2, 3] : List Byte).length ≤ 128 :=
  seal_unseal_round_trip env_ok "s" [1, 2, 3] world_sealed _ (by decide) (by decide)

/-- C16: a byte string longer than 128 bytes makes `seal` throw the
data-too-large error and return the world it was given (nothing logged: no
policy import, no deletion, no replacement); a byte string of at most 128
bytes, in particular of exactly 128, is never answered with that error. -/
theorem seal_size_check (env : Env) (name : String) (data : List Byte) (w : World) :
    (data.length > 128 →
      TpmManager.seal env name data w = (.error (.sealTooLarge data.length), w)) ∧
    (data.length ≤ 128 → ∀ n, (TpmManager.seal env name data w).1 ≠ .error (.sealTooLarge n)) := by
  constructor
  · intro h
    unfold TpmManager.seal
    rw [if_pos h]
  · intro h n
    unfold TpmManager.seal
    rw [if_neg (by omega)]
    have hP' := ensure_pcr_policy_error env w
    rcases hP : TpmManager.ensure_pcr_policy env w with ⟨r1, w1⟩
    rw [hP] at hP'
    cases r1 with
    | error e =>
      dsimp only
      obtain ⟨rc, hrc⟩ := hP' e rfl
      rw [hrc]; simp
    | ok u =>
      dsimp only
      rcases Fapi_Delete env (TpmManager.get_seal_path name) w1 with ⟨rc2, w2⟩
      dsimp only
      rcases Fapi_CreateSeal env (TpmManager.get_seal_path name) TpmManager.POLICY_PATH data w2
        with ⟨rc3, w3⟩
      dsimp only
      split <;> simp

theorem seal_size_check_witness :
    TpmManager.seal env_ok "s" (List.replicate 129 0) world_sealed
      = (.error (.sealTooLarge (List.replicate 129 (0 : Byte)).length), world_sealed) ∧
    (∀ n, (TpmManager.seal env_ok "s" (List.replicate 128 0) world_sealed).1
      ≠ .error (.sealTooLarge n)) :=
  ⟨(seal_size_check env_ok "s" (List.replicate 129 0) world_sealed).1 (by simp),
   (seal_size_check env_ok "s" (List.replicate 128 0) world_sealed).2 (by simp)⟩

/-- C17: for every non-empty string of decimal digits with value `v`,
`parse_size` returns `v` for the bare digits and `1024 * v`, `1048576 * v`,
`1073741824 * v` for the digits followed by K, M, G in either case, whenever
that result is below 2^64; and `parse_size("100M")` is 104857600, the default
size. -/
theorem parse_size_digits (ds : List Char) (hne : ds ≠ []) (hd : ∀ c ∈ ds, isdigit c = true) :
    (decimal_value ds < 2 ^ 64 → parse_size (String.mk ds) = .ok (decimal_value ds)) ∧
    (1024 * decimal_value ds < 2 ^ 64 →
      parse_size (String.mk (ds ++ ['K'])) = .ok (1024 * decimal_value ds) ∧
      parse_size (String.mk (ds ++ ['k'])) = .ok (1024 * decimal_value ds)) ∧
    (1048576 * decimal_value ds < 2 ^ 64 →
      parse_size (String.mk (ds ++ ['M'])) = .ok (1048576 * decimal_value ds) ∧
      parse_size (String.mk (ds ++ ['m'])) = .ok (1048576 * decimal_value ds)) ∧
    (1073741824 * decimal_value ds < 2 ^ 64 →
      parse_size (String.mk (ds ++ ['G'])) = .ok (1073741824 * decimal_value ds) ∧
      parse_size (String.mk (ds ++ ['g'])) = .ok (1073741824 * decimal_value ds)) ∧
    parse_size "100M" = .ok 104857600 ∧ TpmVault.DEFAULT_SIZE = 104857600 := by
  refine ⟨parse_size_plain ds hne hd, fun h => ⟨?_, ?_⟩, fun h => ⟨?_, ?_⟩, fun h => ⟨?_, ?_⟩,
    by decide, by decide⟩
  · exact parse_size_suffixed ds 'K' 1024 hne hd (Or.inl ⟨Or.inl rfl, rfl⟩) h
  · exact parse_size_suffixed ds 'k' 1024 hne hd (Or.inl ⟨Or.inr rfl, rfl⟩) h
  · exact parse_size_suffixed ds 'M' (1024 * 1024) hne hd (Or.inr (Or.inl ⟨Or.inl rfl, rfl⟩)) h
  · exact parse_size_suffixed ds 'm' (1024 * 1024) hne hd (Or.inr (Or.inl ⟨Or.inr rfl, rfl⟩)) h
  · exact parse_size_suffixed ds 'G' (1024 * 1024 * 1024) hne hd
      (Or.inr (Or.inr ⟨Or.inl rfl, rfl⟩)) h
  · exact parse_size_suffixed ds 'g' (1024 * 1024 * 1024) hne hd
      (Or.inr (Or.inr ⟨Or.inr rfl, rfl⟩)) h

theorem parse_size_digits_witness :
    parse_size "512" = .ok 512 ∧ parse_size "512K" = .ok 524288 ∧
    parse_size "512m" = .ok 536870912 ∧ parse_size "2G" = .ok 2147483648 :=
  ⟨(parse_size_digits ['5', '1', '2'] (by decide) (by decide)).1 (by decide),
   ((parse_size_digits ['5', '1', '2'] (by decide) (by decide)).2.1 (by decide)).1,
   ((parse_size_digits ['5', '1', '2'] (by decide) (by decide)).2.2.1 (by decide)).2,
   ((parse_size_digits ['2'] (by decide) (by decide)).2.2.2.1 (by decide)).1⟩

/-- C18, the code at failing inputs: `parse_size` returns a value for strings
that are not digits with an optional suffix: trailing non-digits, a decimal
point, a doubled suffix, leading white space and a sign are accepted (a minus
sign negates modulo 2^64); the empty string and a bare suffix are
rejected. -/
theorem parse_size_accepts_malformed :
    parse_size "12abc" = .ok 12 ∧ parse_size "5.5" = .ok 5 ∧ parse_size "5KK" = .ok 5120 ∧
    parse_size " 5" = .ok 5 ∧ parse_size "+5" = .ok 5 ∧
    parse_size "-1" = .ok 18446744073709551615 ∧
    parse_size "" = .error .emptySize ∧ parse_size "K" = .error (.invalidSize "K") := by
  decide

/-- C19, the code at a failing input: when `fallocate` fails and the `dd`
fallback runs, a request for 1500000 bytes yields an image of 1048576 bytes
(`count = size / (1024 * 1024)` full blocks), while the `fallocate` path
yields exactly 1500000 bytes. -/
theorem create_image_file_fallback_truncates :
    TpmVault.create_image_file env_fallocate_fail "/home/u/s.img" 1500000 world0
      = (.ok (), { world0 with
          files := [("/home/u/s.img", 1048576)]
          log := [⟨.fallocate "/home/u/s.img" 1500000, false⟩, ⟨.dd "/home/u/s.img" 1, true⟩] }) ∧
    (TpmVault.create_image_file env_ok "/home/u/s.img" 1500000 world0).2.files
      = [("/home/u/s.img", 1500000)] := by
  decide

/-- C21, the claim as stated fails: without administrative privileges, a
`wipe` whose confirmation is declined exits with status 0 and reports nothing;
a `create` with a size that does not parse reports the size error; an `open`
on a machine whose secret service cannot be initialised reports the
initialisation error; and where the privilege error is reported, the secret
service has been initialised before. -/
theorem unprivileged_not_uniform :
    (main env_ok ["tpm-vault", "wipe", "s"] "no" world_user).exit = .returned 0 ∧
    (main env_ok ["tpm-vault", "wipe", "s"] "no" world_user).diagnostic = none ∧
    (main env_ok ["tpm-vault", "create", "s", "x"] "" world_user).diagnostic
      = some (.error (.invalidSize "x")) ∧
    (main env_no_tpm ["tpm-vault", "open", "s"] "" world_user).diagnostic
      = some (.error (.fapiInitFailed (.other 393222))) ∧
    (main env_ok ["tpm-vault", "open", "s"] "" world_user).diagnostic
      = some (.error .notRoot) ∧
    (main env_ok ["tpm-vault", "open", "s"] "" world_user).world.log
      = [⟨.fapiInitialize, true⟩] := by
  decide

/-- C21, amended: for each of the five commands given the arguments it needs
(a vault name, a size that parses, the confirmation `yes` for `wipe`), an
invocation without administrative privileges on a machine whose secret
service initialises exits with status 1 and reports the privilege error, the
same in every case; no provisioning and no vault operation is performed: the
only action it can have logged is the initialisation of the secret service,
and the system tables, the sealed secrets and the policies are unchanged. -/
theorem unprivileged_invocation_rejected (env : Env) (argv : List String)
    (confirmation : String) (w : World)
    (hroot : is_root w = false) (hargs : complete_invocation argv confirmation = true)
    (hinit : env.fapi w.log .fapiInitialize = .success) :
    (main env argv confirmation w).exit = .returned 1 ∧
    (main env argv confirmation w).diagnostic = some (.error .notRoot) ∧
    extends_with (fun ev => ev.act = .fapiInitialize) w (main env argv confirmation w).world ∧
    os_tables (main env argv confirmation w).world = os_tables w ∧
    (main env argv confirmation w).world.keystore = w.keystore ∧
    (main env argv confirmation w).world.policies = w.policies := by
  rw [main_unprivileged env argv confirmation w hroot hargs hinit]
  refine ⟨rfl, rfl, ⟨[⟨.fapiInitialize, true⟩], rfl, ?_⟩, rfl, rfl, rfl⟩
  intro ev hev
  simp only [List.mem_singleton] at hev
  rw [hev]

theorem unprivileged_invocation_rejected_witness :
    (main env_ok ["tpm-vault", "create", "s", "1G"] "" world_user).exit = .returned 1 ∧
    (main env_ok ["tpm-vault", "create", "s", "1G"] "" world_user).diagnostic
      = some (.error .notRoot) ∧
    (main env_ok ["tpm-vault", "wipe", "s"] "yes" world_user).diagnostic
      = some (.error .notRoot) ∧
    os_tables (main env_ok ["tpm-vault", "list"] "" world_user).world = os_tables world_user :=
  ⟨(unprivileged_invocation_rejected env_ok ["tpm-vault", "create", "s", "1G"] "" world_user
      (by decide) (by decide) (by decide)).1,
   (unprivileged_invocation_rejected env_ok ["tpm-vault", "create", "s", "1G"] "" world_user
      (by decide) (by decide) (by decide)).2.1,
   (unprivileged_invocation_rejected env_ok ["tpm-vault", "wipe", "s"] "yes" world_user
      (by decide) (by decide) (by decide)).2.1,
   (unprivileged_invocation_rejected env_ok ["tpm-vault", "list"] "" world_user
      (by decide) (by decide) (by decide)).2.2.2.1⟩

/-- C22, the code at failing inputs: with working directory /home/u and the
backing file /home/u.img the first `substr` yields `img`, the length
`filename.size() - 4` of the second wraps to 2^64 - 1 and the extracted name
is `img`, not the file name without its suffix; with a backing file equal to
the working directory /x.img the start position `cwd.size() + 1` lies beyond
the end of the string, `list` raises `std::out_of_range`, and `cmd_list`,
which catches only `VaultError`, ends in `std::terminate`. -/
theorem list_name_wraps_and_throws :
    substr "/home/u.img" ("/home/u".length + 1) npos = .ok "img" ∧
    ("img".length + 2 ^ 64 - 4) % 2 ^ 64 = 2 ^ 64 - 1 ∧
    TpmVault.list_name "/home/u" "/home/u.img" = .ok "img" ∧
    TpmVault.list_name "/x.img" "/x.img" = .error .out_of_range ∧
    TpmVault.list world_cwd_img = .error .out_of_range ∧
    (cmd_list env_ok world_cwd_img).exit = .terminated := by
  decide

/-- C24, the claim as stated fails: the image of the vault `s` is already
bound to /dev/loop3, `attach` reuses that binding, the container open fails,
and the rollback of `open` detaches /dev/loop3: the binding that existed
before the call is gone when `open` returns. -/
theorem open_detaches_existing_binding :
    LoopManager.find_loop_for_file world_sealed_attached "/home/u/s.img" = "/dev/loop3" ∧
    (TpmVault.open_ env_crypt_open_fail "s" world_sealed_attached).1
      = .error (.luksOpenFailed "/dev/loop3") ∧
    (TpmVault.open_ env_crypt_open_fail "s" world_sealed_attached).2.loops = [] ∧
    (TpmVault.open_ env_crypt_open_fail "s" world_sealed_attached).2.log.drop 1
      = [⟨.cryptOpen "/dev/loop3" "tpm-vault-s" (List.replicate 64 7), false⟩,
         ⟨.losetupDetach "/dev/loop3", true⟩] := by
  decide

/-- C24, amended: if a loop binding for the image file already existed before
the call (on device `dev`, which `attach` reuses) and, after a successful
unseal of a 64-byte key, `open` fails, then the last action of `open` is the
attempt to detach `dev`; the loop table on return is the one `open` found
without the bindings of `dev` when that detach succeeded, and exactly the one
it found when the detach failed; so the pre-existing binding still exists on
return exactly when the detach of the rollback failed. -/
theorem open_failure_existing_binding (env : Env) (name : String) (w wu : World)
    (unsealed : List Byte) (dev : String)
    (hex : file_exists w (TpmVault.get_image_path w name) = true)
    (hno : LuksManager.is_open w (LuksManager.get_mapper_name name) = false)
    (huns : TpmManager.unseal env name w = (.ok unsealed, wu))
    (hlen : unsealed.length = TpmVault.KEY_SIZE)
    (hfind : LoopManager.find_loop_for_file w (TpmVault.get_image_path w name) = dev)
    (hdev : dev ≠ "")
    (hfail : (TpmVault.open_ env name w).1 ≠ .ok ()) :
    ∃ ok, (TpmVault.open_ env name w).2.log.getLast? = some ⟨.losetupDetach dev, ok⟩ ∧
      (TpmVault.open_ env name w).2.loops
        = (if ok then w.loops.filter (fun b => b.1 != dev) else w.loops) ∧
      ((dev, TpmVault.get_image_path w name) ∈ (TpmVault.open_ env name w).2.loops
        ↔ ok = false) := by
  have hos := unseal_os env name w
  rw [huns] at hos
  simp only [os_tables, Prod.mk.injEq] at hos
  obtain ⟨hcwd, _, hfiles, hdirs, hloops, _, _⟩ := hos
  have hmem := find_loop_mem w _ dev hfind hdev
  have hfind' : LoopManager.find_loop_for_file
      (release .unsealed (secure_erase_vector unsealed).1 wu)
      (TpmVault.get_image_path (release .unsealed (secure_erase_vector unsealed).1 wu) name)
      = dev := by
    have hi : TpmVault.get_image_path (release .unsealed (secure_erase_vector unsealed).1 wu) name
        = TpmVault.get_image_path w name := by
      simp [TpmVault.get_image_path, get_current_directory, release, hcwd]
    rw [hi, find_loop_congr w _ _ (by simpa [release] using hfiles)
      (by simpa [release] using hdirs) (by simpa [release] using hloops)]
    exact hfind
  obtain ⟨hld, hl⟩ := open_try_existing env name
    (memcpy (SecureBuffer.new TpmVault.KEY_SIZE) unsealed TpmVault.KEY_SIZE) _ dev hfind' hdev
  have hl' : (TpmVault.open_try env name
      (memcpy (SecureBuffer.new TpmVault.KEY_SIZE) unsealed TpmVault.KEY_SIZE)
      (release .unsealed (secure_erase_vector unsealed).1 wu)).2.2.loops = w.loops := by
    rw [hl]; simpa [release] using hloops
  unfold TpmVault.open_ at hfail ⊢
  simp only [hex, hno, Bool.not_true, Bool.false_eq_true, if_false, huns, hlen,
    bne_self_eq_false] at hfail ⊢
  rcases ht : TpmVault.open_try env name
      (memcpy (SecureBuffer.new TpmVault.KEY_SIZE) unsealed TpmVault.KEY_SIZE)
      (release .unsealed (secure_erase_vector unsealed).1 wu) with ⟨r, ld, w1⟩
  rw [ht] at hfail hld hl'
  dsimp only at hld hl'
  subst hld
  cases r with
  | ok u => exact absurd rfl hfail
  | error e =>
    dsimp only
    obtain ⟨ok, hlast, hloops1⟩ := open_catch_detach env name ld w1 hdev
    rw [hl'] at hloops1
    refine ⟨ok, by simpa [SecureBuffer.destroy, release] using hlast,
      by simpa [SecureBuffer.destroy, release] using hloops1, ?_⟩
    have hfin : (SecureBuffer.destroy
        (memcpy (SecureBuffer.new TpmVault.KEY_SIZE) unsealed TpmVault.KEY_SIZE)
        (TpmVault.open_catch env name ld w1)).loops
        = (if ok = true then w.loops.filter (fun b => b.1 != ld) else w.loops) := by
      simpa [SecureBuffer.destroy, release] using hloops1
    rw [hfin]
    cases ok with
    | true => simp
    | false => simpa using hmem

theorem open_failure_existing_binding_witness :
    ∃ ok, (TpmVault.open_ env_crypt_open_fail "s" world_sealed_attached).2.log.getLast?
        = some ⟨.losetupDetach "/dev/loop3", ok⟩ ∧
      (TpmVault.open_ env_crypt_open_fail "s" world_sealed_attached).2.loops
        = (if ok then world_sealed_attached.loops.filter (fun b => b.1 != "/dev/loop3")
           else world_sealed_attached.loops) ∧
      (("/dev/loop3", TpmVault.get_image_path world_sealed_attached "s")
          ∈ (TpmVault.open_ env_crypt_open_fail "s" world_sealed_attached).2.loops
        ↔ ok = false) :=
  open_failure_existing_binding env_crypt_open_fail "s" world_sealed_attached _
    (List.replicate 64 7) "/dev/loop3" (by decide) (by decide) rfl (by decide) (by decide)
    (by decide) (by decide)

/-- C25, the code at failing inputs: `parse_size` returns the product modulo
2^64: 18014398509481984K (2^54 * 2^10 = 2^64) yields 0 and 17179869185G
((2^34 + 1) * 2^30) yields 1073741824, with no error raised, while digits
alone that exceed 2^64 - 1 are rejected. -/
theorem parse_size_wraps :
    parse_size "18014398509481984K" = .ok 0 ∧
    parse_size "17179869185G" = .ok 1073741824 ∧
    18014398509481984 * 1024 = 2 ^ 64 ∧
    17179869185 * (1024 * 1024 * 1024) = 2 ^ 64 + 1073741824 ∧
    parse_size "18446744073709551616" = .error (.invalidSize "18446744073709551616") := by
  decide

/-- C23: in every state in which the path /dev/mapper/tpm-vault-<name> holds
no regular file, every container mapping that is open before `create` is
called is still open, on the same device, when `create` returns, whether it
succeeds or fails; in particular a mapping tpm-vault-<name> that belongs to
another vault of that name stays open. -/
theorem create_keeps_mappings (env : Env) (name : String) (size : Nat) (w : World)
    (hnode : file_exists w (LuksManager.get_mapper_path (LuksManager.get_mapper_name name))
      = false) :
    (∀ e ∈ w.mappers, e ∈ (TpmVault.create env name size w).2.mappers) ∧
    (mapping_open w (LuksManager.get_mapper_name name) = true →
      mapping_open (TpmVault.create env name size w).2 (LuksManager.get_mapper_name name)
        = true) := by
  have key : keeps (LuksManager.get_mapper_path (LuksManager.get_mapper_name name)) w.mappers
      (TpmVault.create env name size w).2 := by
    have h0 : keeps (LuksManager.get_mapper_path (LuksManager.get_mapper_name name)) w.mappers w :=
      ⟨hnode, fun e he => he⟩
    have hdes : ∀ (k : List Byte) (W : World),
        keeps (LuksManager.get_mapper_path (LuksManager.get_mapper_name name)) w.mappers W →
        keeps (LuksManager.get_mapper_path (LuksManager.get_mapper_name name)) w.mappers
          (SecureBuffer.destroy k W) := fun k W h => keeps_os _ _ W _ rfl h
    unfold TpmVault.create
    dsimp only
    split
    · exact h0
    · have hr := keeps_os _ _ w _ (random_bytes_os env TpmVault.KEY_SIZE w) h0
      rcases hg : generate_random_bytes env TpmVault.KEY_SIZE w with ⟨r, wk⟩
      rw [hg] at hr
      cases r with
      | error e => exact hdes _ _ hr
      | ok bytes =>
        dsimp only
        have hrel : keeps (LuksManager.get_mapper_path (LuksManager.get_mapper_name name))
            w.mappers (release .random_bytes (secure_erase_vector bytes).1 wk) :=
          keeps_os _ _ wk _ rfl hr
        have ht := create_try_keeps env name size
          (memcpy (SecureBuffer.new TpmVault.KEY_SIZE) bytes TpmVault.KEY_SIZE) _ _ hrel
        rcases hc : TpmVault.create_try env name size
          (memcpy (SecureBuffer.new TpmVault.KEY_SIZE) bytes TpmVault.KEY_SIZE)
          (release .random_bytes (secure_erase_vector bytes).1 wk) with ⟨r2, ld, w2⟩
        rw [hc] at ht
        cases r2 with
        | ok u => exact hdes _ _ ht
        | error e => exact hdes _ _ (create_catch_keeps env name ld w2 _ ht)
  refine ⟨key.2, ?_⟩
  intro ho
  simp only [mapping_open, decide_eq_true_eq, List.mem_map] at ho ⊢
  obtain ⟨e, he, hn⟩ := ho
  exact ⟨e, key.2 e he, hn⟩

theorem create_keeps_mappings_witness :
    ("tpm-vault-s", "/dev/loop5")
      ∈ (TpmVault.create env_crypt_open_fail "s" 1048576 world_other_mapping).2.mappers ∧
    mapping_open (TpmVault.create env_crypt_open_fail "s" 1048576 world_other_mapping).2
      "tpm-vault-s" = true ∧
    ("tpm-vault-s", "/dev/loop5")
      ∈ (TpmVault.create env_ok "s" 1048576 world_other_mapping).2.mappers :=
  ⟨(create_keeps_mappings env_crypt_open_fail "s" 1048576 world_other_mapping (by decide)).1
      ("tpm-vault-s", "/dev/loop5") (by decide),
   (create_keeps_mappings env_crypt_open_fail "s" 1048576 world_other_mapping (by decide)).2
      (by decide),
   (create_keeps_mappings env_ok "s" 1048576 world_other_mapping (by decide)).1
      ("tpm-vault-s", "/dev/loop5") (by decide)⟩

/-- C9, the claim as stated fails: with the image bound to two loop devices a
`close` in which every step succeeds detaches only the first, a binding
remains and the second `close` performs a detach; with two file systems
mounted at the mount point it unmounts only the upper one and a mount
remains; when the image file was deleted while attached, `close` succeeds
without doing anything and the loop binding remains; with a regular file at
the mapper path the second `close` runs a container close again; and after a
successful `close` of an open vault its mapping is still open. -/
theorem close_leaves_second_binding :
    (TpmVault.close env_ok "s" world_double_binding).1 = .ok () ∧
    ("/dev/loop1", "/home/u/s.img") ∈ (TpmVault.close env_ok "s" world_double_binding).2.loops ∧
    (TpmVault.close env_ok "s" (TpmVault.close env_ok "s" world_double_binding).2).2.log.drop 1
      = [⟨.losetupDetach "/dev/loop1", true⟩] ∧
    (TpmVault.close env_ok "s" world_double_mount).1 = .ok () ∧
    "/home/u/s" ∈ (TpmVault.close env_ok "s" world_double_mount).2.mounts.map Prod.snd ∧
    TpmVault.close env_ok "s" world_image_deleted = (.ok (), world_image_deleted) ∧
    ("/dev/loop0", "/home/u/s.img") ∈ world_image_deleted.loops ∧
    (TpmVault.close env_ok "s" world_regular_node).1 = .ok () ∧
    (TpmVault.close env_ok "s" (TpmVault.close env_ok "s" world_regular_node).2).2.log.drop 3
      = [⟨.cryptClose "tpm-vault-s", true⟩] ∧
    (TpmVault.close env_ok "s" world_opened).1 = .ok () ∧
    mapping_open (TpmVault.close env_ok "s" world_opened).2 "tpm-vault-s" = true := by
  decide

/-- C9, amended: in a state in which the image file exists, at most one loop
device (with a name) is bound to it, at most one file system is mounted at
the mount point (an existing directory), and the mapper path holds no regular
file: after a `close` that succeeds, no mount at the mount point and no loop
binding for the image remain, the file table (hence the image) is untouched,
and a second `close` (under any environment) succeeds and leaves the world
exactly as it is: it performs no unmount, no container close and no detach. -/
theorem close_idempotent (env env2 : Env) (name : String) (w : World)
    (himage : file_exists w (TpmVault.get_image_path w name) = true)
    (hb : at_most_one_binding w (TpmVault.get_image_path w name))
    (hnames : ∀ d, (d, TpmVault.get_image_path w name) ∈ w.loops → d ≠ "")
    (hm : at_most_one_mount w (TpmVault.get_mount_path w name))
    (hdir : TpmVault.get_mount_path w name ∈ w.mounts.map Prod.snd →
      directory_exists w (TpmVault.get_mount_path w name) = true)
    (hnode : file_exists w (LuksManager.get_mapper_path (LuksManager.get_mapper_name name))
      = false)
    (hok : (TpmVault.close env name w).1 = .ok ()) :
    TpmVault.get_mount_path w name ∉ (TpmVault.close env name w).2.mounts.map Prod.snd ∧
    (∀ d, (d, TpmVault.get_image_path w name) ∉ (TpmVault.close env name w).2.loops) ∧
    (TpmVault.close env name w).2.files = w.files ∧
    TpmVault.close env2 name (TpmVault.close env name w).2
      = (.ok (), (TpmVault.close env name w).2) := by
  obtain ⟨hclose, hiff⟩ := close_steps env name w
  obtain ⟨h1, h2, h3⟩ := hiff.mp hok
  rw [hclose]
  have himg : ∀ W : World, W.cwd = w.cwd →
      TpmVault.get_image_path W name = TpmVault.get_image_path w name := by
    intro W h; simp [TpmVault.get_image_path, get_current_directory, h]
  have hmp : ∀ W : World, W.cwd = w.cwd →
      TpmVault.get_mount_path W name = TpmVault.get_mount_path w name := by
    intro W h; simp [TpmVault.get_mount_path, get_current_directory, h]
  generalize TpmVault.get_image_path w name = image at *
  generalize TpmVault.get_mount_path w name = mp at *
  obtain ⟨a1, a2, a3, a4, a5, a6, a7⟩ := close_step_unmount env mp w h1 hm
  have a8 : mp ∉ (TpmVault.unmount_filesystem env mp w).2.mounts.map Prod.snd := by
    by_cases hmem : mp ∈ w.mounts.map Prod.snd
    · apply a2
      unfold realpath
      simp [hdir hmem]
    · exact unmount_not_mounted env mp w hmem
  generalize (TpmVault.unmount_filesystem env mp w).2 = w1 at *
  obtain ⟨b1, b2, b3, b4, b5⟩ := close_step_luks env (LuksManager.get_mapper_name name) w1 h2
  generalize (LuksManager.close env (LuksManager.get_mapper_name name) w1).2 = w2 at *
  have hb2 : at_most_one_binding w2 image := by
    unfold at_most_one_binding at hb ⊢
    rw [b3, a5]; exact hb
  obtain ⟨c1, c2, c3, c4, c5, c6, c7⟩ := close_step_detach env image w2 h3 hb2
  have c8 := close_detach_loops_subset env image w2
  generalize (TpmVault.close_detach env image w2).2 = w3 at *
  have hmnt3 : TpmVault.is_mounted w3 mp = false := by
    rw [is_mounted_congr w1 w3 mp (c3.trans b1) (c4.trans b2) (c6.trans b4)]; exact a1
  have hopen3 : LuksManager.is_open w3 (LuksManager.get_mapper_name name) = false := by
    rw [is_open_congr w w3 _ (c3.trans (b1.trans a3))]; exact hnode
  refine ⟨?_, ?_, c3.trans (b1.trans a3), ?_⟩
  · rw [c6, b4]; exact a8
  · intro d hd
    by_cases hdn : d = ""
    · have hmem := c8 _ hd
      rw [b3, a5] at hmem
      exact hnames d hmem hdn
    · exact c2 (by rw [file_exists_congr w w2 image (b1.trans a3)]; exact himage) d hdn hd
  · have hcwd : w3.cwd = w.cwd := c7.trans (b5.trans a7)
    unfold TpmVault.close
    dsimp only
    rw [himg w3 hcwd, hmp w3 hcwd, unmount_eq]
    simp only [hmnt3, Bool.false_eq_true, if_false]
    rw [luks_close_eq]
    simp only [hopen3, Bool.false_eq_true, if_false]
    unfold TpmVault.close_detach
    simp [c1, remember]

theorem close_idempotent_witness :
    "/home/u/s" ∉ (TpmVault.close env_ok "s" world_opened).2.mounts.map Prod.snd ∧
    (∀ d, (d, "/home/u/s.img") ∉ (TpmVault.close env_ok "s" world_opened).2.loops) ∧
    (TpmVault.close env_ok "s" world_opened).2.files = [("/home/u/s.img", 1048576)] ∧
    TpmVault.close env_format_detach_fail "s" (TpmVault.close env_ok "s" world_opened).2
      = (.ok (), (TpmVault.close env_ok "s" world_opened).2) :=
  close_idempotent env_ok env_format_detach_fail "s" world_opened
    (by decide)
    (by intro d1 d2 h1 h2
        simp only [world_opened, List.mem_singleton, Prod.mk.injEq] at h1 h2
        rw [h1.1, h2.1])
    (by intro d h
        simp only [world_opened, List.mem_singleton, Prod.mk.injEq] at h
        rw [h.1]; decide)
    (by decide) (by decide) (by decide) (by decide)

/-- C1, amended: if the image file does not exist (and no loop binding is
recorded for its path), a step of the guarded sequence of `create` fails with
`e`, and every action that the rollback attempts succeeds, then `create`
raises `e` and on return the image file does not exist, no loop binding for
it remains, and the mount table is the one `create` found (it never mounts or
unmounts). -/
theorem create_failure_atomic (env : Env) (name : String) (size : Nat) (w wk w1 : World)
    (bytes : List Byte) (e : VaultError) (loop_device : String)
    (hnew : file_exists w (TpmVault.get_image_path w name) = false)
    (hnoloop : ∀ d, (d, TpmVault.get_image_path w name) ∉ w.loops)
    (hvalid : ∀ h, succeeds env h (.losetupAttach (TpmVault.get_image_path w name)) = true →
      valid_loop_device (env.output h (.losetupAttach (TpmVault.get_image_path w name))) = true)
    (hkey : generate_random_bytes env TpmVault.KEY_SIZE w = (.ok bytes, wk))
    (hfail : TpmVault.create_try env name size
        (memcpy (SecureBuffer.new TpmVault.KEY_SIZE) bytes TpmVault.KEY_SIZE)
        (release .random_bytes (secure_erase_vector bytes).1 wk)
      = (.error e, loop_device, w1))
    (hclean : ∀ ev ∈ (TpmVault.create_catch env name loop_device w1).log.drop w1.log.length,
      ev.ok = true) :
    (TpmVault.create env name size w).1 = .error e ∧
    file_exists (TpmVault.create env name size w).2 (TpmVault.get_image_path w name) = false ∧
    (∀ d, (d, TpmVault.get_image_path w name) ∉ (TpmVault.create env name size w).2.loops) ∧
    (TpmVault.create env name size w).2.mounts = w.mounts := by
  have hclean' : ∀ ev ∈ create_rollback_events env name loop_device w1, ev.ok = true := by
    rw [create_catch_log, List.drop_left] at hclean
    exact hclean
  have hos := random_bytes_os env TpmVault.KEY_SIZE w
  rw [hkey] at hos
  simp only [os_tables, Prod.mk.injEq] at hos
  obtain ⟨hcwd, _, _, _, hloops, _, hmounts⟩ := hos
  have himg : ∀ (W : World), W.cwd = w.cwd →
      TpmVault.get_image_path W name = TpmVault.get_image_path w name := by
    intro W h; simp [TpmVault.get_image_path, get_current_directory, h]
  have inv := create_try_inv env name size
    (memcpy (SecureBuffer.new TpmVault.KEY_SIZE) bytes TpmVault.KEY_SIZE)
    (release .random_bytes (secure_erase_vector bytes).1 wk)
    (by rw [himg _ (by simpa [release] using hcwd)]
        intro d; simpa [release, hloops] using hnoloop d)
    (by rw [himg _ (by simpa [release] using hcwd)]; exact hvalid)
  rw [hfail, himg _ (by simpa [release] using hcwd)] at inv
  obtain ⟨icwd, imounts, iloops⟩ := inv
  simp only [release] at icwd imounts
  have post := create_catch_post env name loop_device w1 hclean'
    (by rw [himg w1 (icwd.trans hcwd)]; exact iloops)
  rw [himg w1 (icwd.trans hcwd)] at post
  unfold TpmVault.create
  simp only [hnew, Bool.false_eq_true, if_false, hkey, hfail]
  refine ⟨trivial, ?_, ?_, ?_⟩
  · simpa [SecureBuffer.destroy, release, file_exists] using post.1
  · simpa [SecureBuffer.destroy, release] using post.2.1
  · simp only [SecureBuffer.destroy, release]
    rw [post.2.2.1, imounts, hmounts]

theorem create_failure_atomic_witness :
    (TpmVault.create env_mkfs_fail "s" 1048576 world0).1
      = .error (.mkfsFailed "/dev/mapper/tpm-vault-s") ∧
    file_exists (TpmVault.create env_mkfs_fail "s" 1048576 world0).2 "/home/u/s.img" = false ∧
    (∀ d, (d, "/home/u/s.img") ∉ (TpmVault.create env_mkfs_fail "s" 1048576 world0).2.loops) ∧
    (TpmVault.create env_mkfs_fail "s" 1048576 world0).2.mounts = [] :=
  create_failure_atomic env_mkfs_fail "s" 1048576 world0 _ _ _ _ _
    (by decide) (fun _ => List.not_mem_nil _) (fun _ _ => rfl) rfl rfl (by decide)

/-- C2, the code at a failing input: `mkfs` fails after the container open
succeeded, so the mapping tpm-vault-s is open when the rollback starts; the
rollback detaches the loop device and deletes the image but makes no attempt
to close the mapping, which is still open when `create` returns.  The error
raised is the one of the failed step. -/
theorem create_rollback_skips_close :
    (TpmVault.create env_mkfs_fail "s" 1048576 world0).1
      = .error (.mkfsFailed "/dev/mapper/tpm-vault-s") ∧
    (TpmVault.create env_mkfs_fail "s" 1048576 world0).2.log.drop 4
      = [⟨.cryptOpen "/dev/loop0" "tpm-vault-s" (List.replicate 64 7), true⟩,
         ⟨.mkfs "/dev/mapper/tpm-vault-s", false⟩,
         ⟨.losetupDetach "/dev/loop0", true⟩,
         ⟨.remove "/home/u/s.img", true⟩] ∧
    mapping_open (TpmVault.create env_mkfs_fail "s" 1048576 world0).2 "tpm-vault-s" = true := by
  decide

/-- C3, the code at a failing input: every step succeeds and the random
source yields the bytes 0 to 63.  The generated 64 bytes are the key given to
format, to the container open and to seal, and the sealed secret equals them;
but between `mkfs` and the detach no container close is run, and the mapping
tpm-vault-s is still open when `create` returns. -/
theorem create_success_leaves_mapping :
    (TpmVault.create env_counting "s" 1048576 world0).1 = .ok () ∧
    (TpmVault.create env_counting "s" 1048576 world0).2.log
      = [⟨.readUrandom 64, true⟩,
         ⟨.fallocate "/home/u/s.img" 1048576, true⟩,
         ⟨.losetupAttach "/home/u/s.img", true⟩,
         ⟨.luksFormat "/dev/loop0" 512 sample_key, true⟩,
         ⟨.cryptOpen "/dev/loop0" "tpm-vault-s" sample_key, true⟩,
         ⟨.mkfs "/dev/mapper/tpm-vault-s", true⟩,
         ⟨.losetupDetach "/dev/loop0", true⟩,
         ⟨.fapiImport "/policy/tpm_vault_pcr", true⟩,
         ⟨.fapiDelete "/HS/SRK/seal_s", false⟩,
         ⟨.fapiCreateSeal "/HS/SRK/seal_s" "/policy/tpm_vault_pcr" sample_key, true⟩] ∧
    mapping_open (TpmVault.create env_counting "s" 1048576 world0).2 "tpm-vault-s" = true ∧
    (TpmVault.create env_counting "s" 1048576 world0).2.files = [("/home/u/s.img", 1048576)] ∧
    (TpmVault.create env_counting "s" 1048576 world0).2.loops = [] ∧
    (TpmVault.create env_counting "s" 1048576 world0).2.keystore
      = [("/HS/SRK/seal_s", sample_key)] := by
  decide

/-- C5, the code at a failing input: the vault `s` is open (its mapping
tpm-vault-s exists) and `open` is called again.  The probe `is_open` answers
false, so `open` does not raise the already-open error: it unseals the key,
reuses the loop device, runs `cryptsetup open`, which fails, and its rollback
detaches the loop device of the open vault.  With the image missing, `open`
raises the not-found error and changes nothing. -/
theorem open_misses_open_mapping :
    mapping_open world_opened_sealed "tpm-vault-s" = true ∧
    LuksManager.is_open world_opened_sealed "tpm-vault-s" = false ∧
    (TpmVault.open_ env_crypt_open_fail "s" world_opened_sealed).1
      = .error (.luksOpenFailed "/dev/loop0") ∧
    (TpmVault.open_ env_crypt_open_fail "s" world_opened_sealed).2.log
      = [⟨.fapiUnseal "/HS/SRK/seal_s", true⟩,
         ⟨.cryptOpen "/dev/loop0" "tpm-vault-s" (List.replicate 64 7), false⟩,
         ⟨.losetupDetach "/dev/loop0", true⟩] ∧
    (TpmVault.open_ env_crypt_open_fail "s" world_opened_sealed).2.loops = [] ∧
    TpmVault.open_ env_ok "s" world0 = (.error (.imageNotFound "s"), world0) := by
  decide

/-- C7, the code at a failing input: attach and container open succeed and
the mount fails.  `open` raises the mount failure and detaches the loop
device, but its rollback makes no attempt to close the mapping, which is
still open when `open` returns. -/
theorem open_rollback_skips_close :
    (TpmVault.open_ env_mount_fail "s" world_sealed).1
      = .error (.mountFailed "/dev/mapper/tpm-vault-s" "/home/u/s") ∧
    (TpmVault.open_ env_mount_fail "s" world_sealed).2.log
      = [⟨.fapiUnseal "/HS/SRK/seal_s", true⟩,
         ⟨.losetupAttach "/home/u/s.img", true⟩,
         ⟨.cryptOpen "/dev/loop0" "tpm-vault-s" (List.replicate 64 7), true⟩,
         ⟨.mkdir "/home/u/s", true⟩,
         ⟨.mount "/dev/mapper/tpm-vault-s" "/home/u/s", false⟩,
         ⟨.losetupDetach "/dev/loop0", true⟩] ∧
    mapping_open (TpmVault.open_ env_mount_fail "s" world_sealed).2 "tpm-vault-s" = true ∧
    (TpmVault.open_ env_mount_fail "s" world_sealed).2.loops = [] := by
  decide

/-- C8, the code at a failing input: the vault `s` is open and mounted and
`umount` fails.  `close` goes on after the failed unmount and detaches the
loop device, and raises the unmount error; but the step between them runs no
`cryptsetup close`, and the mapping is still open on return.  The same holds
when every command succeeds: `close` returns normally after an unmount and a
detach only. -/
theorem close_skips_container_close :
    mapping_open world_opened "tpm-vault-s" = true ∧
    (TpmVault.close env_umount_fail "s" world_opened).1 = .error (.unmountFailed "/home/u/s") ∧
    (TpmVault.close env_umount_fail "s" world_opened).2.log
      = [⟨.umount "/home/u/s", false⟩, ⟨.losetupDetach "/dev/loop0", true⟩] ∧
    mapping_open (TpmVault.close env_umount_fail "s" world_opened).2 "tpm-vault-s" = true ∧
    (TpmVault.close env_ok "s" world_opened).1 = .ok () ∧
    (TpmVault.close env_ok "s" world_opened).2.log
      = [⟨.umount "/home/u/s", true⟩, ⟨.losetupDetach "/dev/loop0", true⟩] ∧
    mapping_open (TpmVault.close env_ok "s" world_opened).2 "tpm-vault-s" = true := by
  decide

/-- C10, the code at failing inputs: `list` decides that a mapping is open by
looking for a regular file at its path.  With a regular file at
/dev/mapper/tpm-vault-s and no mapping open, the binding of /home/u/s.img is
reported; with the vault `s` open and mounted (its mapping exists), nothing
is reported. -/
theorem list_reports_without_mapping :
    mapping_open world_regular_node "tpm-vault-s" = false ∧
    TpmVault.list world_regular_node
      = .ok [{ name := "s", image_path := "/home/u/s.img", loop_device := "/dev/loop0",
               mapper_device := "/dev/mapper/tpm-vault-s", mount_point := "/home/u/s" }] ∧
    mapping_open world_opened "tpm-vault-s" = true ∧
    TpmVault.list world_opened = .ok [] := by
  decide

/-- C11, the code at a failing input: with working directory /home/u, the
binding of /dev/loop1 to /home/u-c.img passes the test
`backing_file.find(cwd) == 0`, yields the vault name `c`, and is reported,
although the file is not in the working directory (its path does not start
with the working directory followed by a slash). -/
theorem list_reports_file_outside_cwd :
    TpmVault.list world_foreign_image
      = .ok [{ name := "c", image_path := "/home/u-c.img", loop_device := "/dev/loop1",
               mapper_device := "/dev/mapper/tpm-vault-c", mount_point := "/home/u/c" }] ∧
    (world_foreign_image.cwd ++ "/").toList.isPrefixOf "/home/u-c.img".toList = false := by
  decide

/-- C20, the code at a failing input: `open` of the sealed vault `s` succeeds.
Three buffers held the 64 key bytes in that call; the vector `unsealed` and
the `SecureBuffer` are released zero-filled, but the buffer that `Fapi_Unseal`
allocated is handed to `Fapi_Free` with the key still in it.  In `create` the
two buffers that held the key are both released zero-filled. -/
theorem open_frees_key_unerased :
    (TpmVault.open_ env_ok "s" world_sealed).1 = .ok () ∧
    (TpmVault.open_ env_ok "s" world_sealed).2.released
      = [(.fapi_data, List.replicate 64 7), (.unsealed, List.replicate 64 0),
         (.master_key, List.replicate 64 0)] ∧
    (TpmVault.create env_ok "s" 1048576 world0).2.released
      = [(.random_bytes, List.replicate 64 0), (.master_key, List.replicate 64 0)] := by
  decide

end tpm_vault
